import Mathlib

/-!
Shallow embedding of the veraison/rust-ear EAT Attestation Results library,
translated from the Rust sources (src/trust/{tier,claim,vector}.rs,
src/nonce.rs, src/extension.rs, src/ear.rs, src/appraisal.rs, src/id.rs,
src/key.rs, src/raw.rs, src/error.rs), together with theorems settling the
specification claims about it.

Modelling conventions:
  * Rust machine integers (i8, i32, i64, u64) are modelled as `Int` with the
    range constraints made explicit where the code checks them.
  * `f64` values are modelled by their 64-bit pattern as a `Nat`; no claim
    settled here evaluates floating-point semantics.
  * Fallible Rust functions returning `Result<T, Error>` become
    `Except Error T`; serde serializer/deserializer errors (strings produced
    through `Error::custom`) become `Except String T`.
  * serde's data model (the wire between the entity codecs and the black-box
    JSON/CBOR engines) is modelled by the inductive `Wire`; `MapAccess`
    consumption is modelled entry-at-a-time over an association list, the
    engines themselves being external collaborators.
-/

namespace RustEar

/-- Embeds `Error` from src/error.rs. The last two constructors are
required by src/extension.rs (`Error::ExtensionError`,
`Error::ProfileError`); the snapshot's src/error.rs predates them, so they
follow the error taxonomy of spec §7. -/
inductive Error where
  | ParseError (s : String)
  | FormatError (s : String)
  | SignError (s : String)
  | VerifyError (s : String)
  | KeyError (s : String)
  | ValidationError (s : String)
  | InvalidValue (v : Int)
  | InvalidName (s : String)
  | InvalidKey (k : Int)
  | ExtensionError (s : String)
  | ProfileError (s : String)
deriving DecidableEq, Repr

/-- Embeds the `thiserror` `Display` strings of `Error` (src/error.rs),
used when a typed error is funnelled through serde's `Error::custom`. -/
def Error.display : Error → String
  | .ParseError s => "parse error: " ++ s
  | .FormatError s => "format error: " ++ s
  | .SignError s => "sign error: " ++ s
  | .VerifyError s => "verify error: " ++ s
  | .KeyError s => "key error: " ++ s
  | .ValidationError s => "validation error: " ++ s
  | .InvalidValue v => "invalid value: " ++ toString v
  | .InvalidName s => "invalid name: " ++ s
  | .InvalidKey k => "invalid key: " ++ toString k
  | .ExtensionError s => "extension error: " ++ s
  | .ProfileError s => "profile error: " ++ s

/-- Embeds `TrustTier` from src/trust/tier.rs. -/
inductive TrustTier where
  | None
  | Affirming
  | Warning
  | Contraindicated
deriving DecidableEq, Repr

/-- Embeds `impl From<&TrustTier> for i8` (src/trust/tier.rs). -/
def TrustTier.toI8 : TrustTier → Int
  | .None => 0
  | .Affirming => 2
  | .Warning => 32
  | .Contraindicated => 96

/-- Embeds `impl From<&TrustTier> for &str` (src/trust/tier.rs). -/
def TrustTier.toStr : TrustTier → String
  | .None => "none"
  | .Affirming => "affirming"
  | .Warning => "warning"
  | .Contraindicated => "contraindicated"

/-- Embeds `impl TryFrom<i8> for TrustTier` (src/trust/tier.rs). -/
def TrustTier.fromI8 (value : Int) : Except Error TrustTier :=
  if value = 0 then .ok .None
  else if value = 2 then .ok .Affirming
  else if value = 32 then .ok .Warning
  else if value = 96 then .ok .Contraindicated
  else .error (.InvalidValue value)

/-- ASCII lower-casing, standing in for Rust's `str::to_lowercase` in
`TryFrom<&str> for TrustTier`; the two agree on all ASCII input and every
tier name compared against is ASCII. -/
def asciiLower (s : String) : String :=
  String.mk (s.data.map fun c =>
    if c.val ≥ 65 ∧ c.val ≤ 90 then Char.ofNat (c.toNat + 32) else c)

/-- Embeds `impl TryFrom<&str> for TrustTier` (src/trust/tier.rs). -/
def TrustTier.fromStr (value : String) : Except Error TrustTier :=
  if asciiLower value = "none" then .ok .None
  else if asciiLower value = "affirming" then .ok .Affirming
  else if asciiLower value = "warning" then .ok .Warning
  else if asciiLower value = "contraindicated" then .ok .Contraindicated
  else .error (.InvalidName value)

/-- Embeds `ClaimDescripiton` (sic) from src/trust/claim.rs. -/
structure ClaimDescripiton where
  key : Int
  name : String
deriving DecidableEq, Repr

/-- Embeds `TrustClaim` from src/trust/claim.rs: an optional i8 value plus
the claim's descriptor. The static per-claim value-description tables are
not embedded: no claim settled here reads `value_name`/`value_short_desc`/
`value_long_desc`, and every operation used (`tier`, `get`, `value`,
`set`, `unset`, `is_set`, `PartialEq`) ignores them. -/
structure TrustClaim where
  value : Option Int
  desc : ClaimDescripiton
deriving DecidableEq, Repr

namespace TrustClaim

/-- Embeds `TrustClaim::is_set`. -/
def is_set (c : TrustClaim) : Bool := c.value.isSome

/-- Embeds `TrustClaim::set`. -/
def set (c : TrustClaim) (v : Int) : TrustClaim := { c with value := some v }

/-- Embeds `TrustClaim::unset`. -/
def unset (c : TrustClaim) : TrustClaim := { c with value := none }

/-- Embeds `TrustClaim::get`: the value, with `0` for an unset claim. -/
def get (c : TrustClaim) : Int := c.value.getD 0

/-- Embeds `TrustClaim::value` (an alias of `get`). -/
def valueFn (c : TrustClaim) : Int := c.get

/-- Embeds `TrustClaim::tier` (src/trust/claim.rs lines 445-456).
Rust's `(-1..=1)` is the closed interval, while `(-32..32)` and
`(-96..96)` are half-open: they contain their lower bound and exclude
their upper bound. -/
def tier (c : TrustClaim) : TrustTier :=
  let val := c.valueFn
  if -1 ≤ val ∧ val ≤ 1 then .None
  else if -32 ≤ val ∧ val < 32 then .Affirming
  else if -96 ≤ val ∧ val < 96 then .Warning
  else .Contraindicated

/-- Embeds `impl PartialEq<TrustClaim> for TrustClaim` (src/trust/claim.rs
lines 467-471): equality compares only the effective values. -/
def eqClaim (a b : TrustClaim) : Bool := a.valueFn = b.valueFn

end TrustClaim

/-- The `INSTANCE_CLAIM_DESC` descriptor from src/trust/claim.rs. -/
def instanceClaimDesc : ClaimDescripiton := ⟨0, "instance-identity"⟩

/-- The `CONFIG_CLAIM_DESC` descriptor from src/trust/claim.rs. -/
def configClaimDesc : ClaimDescripiton := ⟨1, "configuration"⟩

/-- Formalises the claim text of C1 word for word, for comparison with the
source's `TrustClaim.tier`: None if −1 ≤ v ≤ 1; Affirming if −32 < v < 32
(exclusive bounds); Warning if −96 < v < 96 (exclusive bounds);
Contraindicated otherwise (v ≤ −96 or v ≥ 96), None checked first. -/
def tierSpecC1 (v : Int) : TrustTier :=
  if -1 ≤ v ∧ v ≤ 1 then .None
  else if -32 < v ∧ v < 32 then .Affirming
  else if -96 < v ∧ v < 96 then .Warning
  else .Contraindicated

/-! ## The serde data model and the base64 `Bytes` type -/

/-- The serde data-model value passed between the entity codecs and the
black-box JSON/CBOR engines (the "wire"). `flt` carries an `f64` by its
64-bit pattern; `tagged` stands for ciborium's enum convention
(`@@TAG@@`/`@@TAGGED@@`) through which CBOR semantic tags travel, and is
never produced by the human-readable engine. -/
inductive Wire where
  | int (i : Int)
  | flt (bits : Nat)
  | text (s : String)
  | bytes (b : List Nat)
  | boolv (b : Bool)
  | null
  | arr (xs : List Wire)
  | map (entries : List (Wire × Wire))
  | tagged (t : Nat) (v : Wire)

/-- The URL-safe base64 alphabet, in index order. -/
def b64Alphabet : List Char :=
  "ABCDEFGHIJKLMNOPQRSTUVWXYZabcdefghijklmnopqrstuvwxyz0123456789-_".data

/-- Index of a character in the base64 alphabet. -/
def b64CharVal (c : Char) : Option Nat :=
  go b64Alphabet 0
where
  go : List Char → Nat → Option Nat
    | [], _ => none
    | x :: xs, n => if x = c then some n else go xs (n + 1)

/-- Encode a run of bytes as base64 sextet characters (no padding). -/
def b64EncodeGroups : List Nat → List Char
  | [] => []
  | [a] =>
      [b64Alphabet.getD (a / 4) 'A', b64Alphabet.getD (a % 4 * 16) 'A']
  | [a, b] =>
      [b64Alphabet.getD (a / 4) 'A', b64Alphabet.getD (a % 4 * 16 + b / 16) 'A',
       b64Alphabet.getD (b % 16 * 4) 'A']
  | a :: b :: c :: rest =>
      b64Alphabet.getD (a / 4) 'A' :: b64Alphabet.getD (a % 4 * 16 + b / 16) 'A' ::
      b64Alphabet.getD (b % 16 * 4 + c / 64) 'A' :: b64Alphabet.getD (c % 64) 'A' ::
      b64EncodeGroups rest

/-- Decode base64 sextet values back into bytes, rejecting impossible
lengths and non-zero trailing bits. -/
def b64DecodeGroups : List Nat → Except Error (List Nat)
  | [] => .ok []
  | [_] => .error (.ParseError "invalid base64 length")
  | [a, b] =>
      if b % 16 = 0 then .ok [a * 4 + b / 16]
      else .error (.ParseError "invalid base64 trailing bits")
  | [a, b, c] =>
      if c % 4 = 0 then .ok [a * 4 + b / 16, b % 16 * 16 + c / 4]
      else .error (.ParseError "invalid base64 trailing bits")
  | a :: b :: c :: d :: rest => do
      let tail ← b64DecodeGroups rest
      .ok ((a * 4 + b / 16) :: (b % 16 * 16 + c / 4) :: (c % 4 * 64 + d) :: tail)

/-- Modelled from the spec: URL-safe unpadded base64 encoding of bytes. The
`base64` module (`crate::base64`) belongs to this repository but is not
under src/; the spec (§3) says bytes are written to the human-readable
format as a text encoding, and the repository's own tests pin the encoding
("3q2-7w" ↔ de ad be ef). -/
def base64Encode (bs : List Nat) : String := String.mk (b64EncodeGroups bs)

/-- Modelled from the spec: URL-safe unpadded base64 decoding, the inverse
of `base64Encode` (see its comment; `crate::base64` is not under src/). -/
def base64Decode (s : String) : Except Error (List Nat) := do
  let vals ← s.data.mapM fun c =>
    match b64CharVal c with
    | some v => Except.ok v
    | none => Except.error (Error.ParseError "invalid base64 character")
  b64DecodeGroups vals

/-- Modelled from the spec: serde serialization of `crate::base64::Bytes`
(not under src/) — a byte string in binary mode, a base64 text string in
human-readable mode (spec §3; pinned by the repository's tests). -/
def bytesSerializeWire (b : List Nat) (hr : Bool) : Wire :=
  if hr then .text (base64Encode b) else .bytes b

/-- Modelled from the spec: serde deserialization of `crate::base64::Bytes`
(not under src/) — accepts a byte string directly or decodes a base64 text
string; anything else is a type error. -/
def bytesDeserializeWire : Wire → Except String (List Nat)
  | .text s => (base64Decode s).mapError Error.display
  | .bytes b => .ok b
  | _ => .error "invalid type: expected bytes"

/-! ## RawValue (src/raw.rs) -/

/-- Embeds `RawValue` from src/raw.rs. `float` carries the `f64` bit
pattern; no claim settled here evaluates float semantics. -/
inductive RawValue where
  | integer (i : Int)
  | bytes (b : List Nat)
  | float (bits : Nat)
  | text (s : String)
  | boolv (b : Bool)
  | arr (vs : List RawValue)
  | map (es : List (RawValue × RawValue))
  | tagged (t : Nat) (v : RawValue)

mutual

/-- Embeds the derived `PartialEq` of `RawValue` (src/raw.rs): structural
equality (`f64` fields modelled by bit pattern). -/
def rawEq : RawValue → RawValue → Bool
  | .integer a, .integer b => a = b
  | .bytes a, .bytes b => a = b
  | .float a, .float b => a = b
  | .text a, .text b => a = b
  | .boolv a, .boolv b => a = b
  | .arr a, .arr b => rawEqList a b
  | .map a, .map b => rawEqPairs a b
  | .tagged t a, .tagged u b => t = u && rawEq a b
  | _, _ => false

def rawEqList : List RawValue → List RawValue → Bool
  | [], [] => true
  | a :: as_, b :: bs => rawEq a b && rawEqList as_ bs
  | _, _ => false

def rawEqPairs : List (RawValue × RawValue) → List (RawValue × RawValue) → Bool
  | [], [] => true
  | (k, v) :: as_, (l, w) :: bs => rawEq k l && rawEq v w && rawEqPairs as_ bs
  | _, _ => false

end

mutual

/-- Embeds `impl Serialize for RawValue` (src/raw.rs): in human-readable
mode a `Tagged` value loses its tag (the documented lossy direction) and
bytes are written as base64 text; in binary mode the tag is preserved via
the tuple-variant convention. -/
def RawValue.serializeWire (hr : Bool) : RawValue → Wire
  | .integer i => .int i
  | .bytes b => bytesSerializeWire b hr
  | .float f => .flt f
  | .text s => .text s
  | .boolv b => .boolv b
  | .arr vs => .arr (RawValue.serializeWireList hr vs)
  | .map es => .map (RawValue.serializeWirePairs hr es)
  | .tagged t v =>
      if hr then RawValue.serializeWire hr v
      else .tagged t (RawValue.serializeWire hr v)

def RawValue.serializeWireList (hr : Bool) : List RawValue → List Wire
  | [] => []
  | v :: vs => RawValue.serializeWire hr v :: RawValue.serializeWireList hr vs

def RawValue.serializeWirePairs (hr : Bool) :
    List (RawValue × RawValue) → List (Wire × Wire)
  | [] => []
  | (k, v) :: es =>
      (RawValue.serializeWire hr k, RawValue.serializeWire hr v) ::
        RawValue.serializeWirePairs hr es

end

mutual

/-- Embeds `RawValueVisitor` (src/raw.rs): classifies one wire value;
unsigned integers beyond the i64 range are a decode error, null is not
supported, and the ciborium tag convention reconstitutes `Tagged`. -/
def RawValue.deserializeWire : Wire → Except String RawValue
  | .int i =>
      if -(2 ^ 63) ≤ i ∧ i < 2 ^ 63 then .ok (.integer i)
      else .error "out of range integral type conversion attempted"
  | .flt f => .ok (.float f)
  | .text s => .ok (.text s)
  | .bytes b => .ok (.bytes b)
  | .boolv b => .ok (.boolv b)
  | .null => .error "invalid type: null, expected an arbitrary JSON or CBOR structure"
  | .arr xs => do .ok (.arr (← RawValue.deserializeWireList xs))
  | .map es => do .ok (.map (← RawValue.deserializeWirePairs es))
  | .tagged t v => do .ok (.tagged t (← RawValue.deserializeWire v))

def RawValue.deserializeWireList : List Wire → Except String (List RawValue)
  | [] => .ok []
  | w :: ws => do .ok ((← RawValue.deserializeWire w) :: (← RawValue.deserializeWireList ws))

def RawValue.deserializeWirePairs :
    List (Wire × Wire) → Except String (List (RawValue × RawValue))
  | [] => .ok []
  | (k, v) :: es => do
      .ok ((← RawValue.deserializeWire k, ← RawValue.deserializeWire v) ::
        (← RawValue.deserializeWirePairs es))

end

/-! ## Nonce (src/nonce.rs) -/

/-- Embeds `OneNonce` from src/nonce.rs. -/
inductive OneNonce where
  | str (s : String)
  | bytes (b : List Nat)
deriving DecidableEq, Repr

/-- Embeds `impl TryFrom<&[u8]> for OneNonce` (src/nonce.rs lines 14-26):
accepted exactly when the byte length is between 8 and 64. -/
def OneNonce.fromBytes (v : List Nat) : Except Error OneNonce :=
  if 8 ≤ v.length ∧ v.length ≤ 64 then .ok (.bytes v)
  else .error (.ParseError "nonce must be between 8 and 64 bytes")

/-- Embeds `impl TryFrom<&str> for OneNonce` (src/nonce.rs lines 42-54).
Rust's `str::len` is the length of the UTF-8 encoding in bytes, embedded
here as `String.utf8ByteSize`. -/
def OneNonce.fromStr (v : String) : Except Error OneNonce :=
  if 8 ≤ v.utf8ByteSize ∧ v.utf8ByteSize ≤ 88 then .ok (.str v)
  else .error (.ParseError "nonce must be between 8 and 88 characters")

/-- Embeds `impl Serialize for OneNonce` (src/nonce.rs lines 83-105): a
byte nonce only serializes in binary mode, a text nonce only in
human-readable mode; the mismatching direction is a serialization error. -/
def OneNonce.serializeWire (hr : Bool) : OneNonce → Except String Wire
  | .bytes v =>
      if !hr then .ok (bytesSerializeWire v false)
      else .error "cannot write byte nonce to JSON"
  | .str v =>
      if hr then .ok (.text v)
      else .error "cannot write string nonce to CBOR"

/-- Embeds `OneNonceVisitor` (src/nonce.rs): accepts a text or byte string,
re-checking the length bounds. -/
def OneNonce.deserializeWire : Wire → Except String OneNonce
  | .text s => (OneNonce.fromStr s).mapError Error.display
  | .bytes b => (OneNonce.fromBytes b).mapError Error.display
  | _ => .error "invalid type: expected a text string or a byte string"

/-- Embeds the tuple struct `Nonce(Vec<OneNonce>)` from src/nonce.rs. -/
structure Nonce where
  elems : List OneNonce
deriving DecidableEq, Repr

/-- Embeds `impl TryFrom<&[u8]> for Nonce`. -/
def Nonce.fromBytes (v : List Nat) : Except Error Nonce := do
  .ok ⟨[← OneNonce.fromBytes v]⟩

/-- Embeds `impl TryFrom<&str> for Nonce`. -/
def Nonce.fromStr (v : String) : Except Error Nonce := do
  .ok ⟨[← OneNonce.fromStr v]⟩

/-- Embeds `impl Serialize for Nonce` (src/nonce.rs lines 243-260): none
for an empty nonce, the single element directly, or a sequence of the
elements (propagating each element's mode error). -/
def Nonce.serializeWire (hr : Bool) (n : Nonce) : Except String Wire :=
  match n.elems with
  | [] => .ok .null
  | [x] => OneNonce.serializeWire hr x
  | xs => do .ok (.arr (← xs.mapM (OneNonce.serializeWire hr)))

/-- Embeds `NonceVisitor` (src/nonce.rs): a text string, a byte string, or
an array of one-nonces. -/
def Nonce.deserializeWire : Wire → Except String Nonce
  | .text s => (Nonce.fromStr s).mapError Error.display
  | .bytes b => (Nonce.fromBytes b).mapError Error.display
  | .arr xs => do .ok ⟨← xs.mapM OneNonce.deserializeWire⟩
  | _ => .error "invalid type: expected a text string, a byte string, or an array"

/-! ## TrustTier codec (src/trust/tier.rs) -/

/-- Embeds `impl Serialize for TrustTier`: its name in human-readable mode,
its i8 value in binary mode. -/
def TrustTier.serializeWire (hr : Bool) (t : TrustTier) : Wire :=
  if hr then .text t.toStr else .int t.toI8

/-- Embeds `TrustTierVisitor` (src/trust/tier.rs): integers are funnelled
through the i8 range check and `TryFrom<i8>`; strings through
`TryFrom<&str>`; other shapes are type errors. -/
def TrustTier.deserializeWire : Wire → Except String TrustTier
  | .int i =>
      if -128 ≤ i ∧ i ≤ 127 then
        (TrustTier.fromI8 i).mapError fun _ =>
          "Unexpected TrustTier value: " ++ toString i
      else .error ("Unexpected TrustTier value: " ++ toString i)
  | .text s =>
      (TrustTier.fromStr s).mapError fun _ => "Unexpected TrustTier value: " ++ s
  | _ => .error "invalid type: expected a string or an integer between -128 and 127"

/-! ## TrustVector (src/trust/vector.rs) -/

/-- Embeds `TrustVector` from src/trust/vector.rs: exactly 8 TrustClaims
in a fixed order. -/
structure TrustVector where
  instance_identity : TrustClaim
  configuration : TrustClaim
  executables : TrustClaim
  file_system : TrustClaim
  hardware : TrustClaim
  runtime_opaque : TrustClaim
  storage_opaque : TrustClaim
  sourced_data : TrustClaim
deriving DecidableEq, Repr

namespace TrustVector

/-- Embeds `TrustVector::new`: all claims unset, each bound to its
descriptor (value-description tables are not modelled, see `TrustClaim`). -/
def new : TrustVector where
  instance_identity := ⟨none, ⟨0, "instance-identity"⟩⟩
  configuration := ⟨none, ⟨1, "configuration"⟩⟩
  executables := ⟨none, ⟨2, "executables"⟩⟩
  file_system := ⟨none, ⟨3, "file-system"⟩⟩
  hardware := ⟨none, ⟨4, "hardware"⟩⟩
  runtime_opaque := ⟨none, ⟨5, "runtime-opaque"⟩⟩
  storage_opaque := ⟨none, ⟨6, "storage-opaque"⟩⟩
  sourced_data := ⟨none, ⟨7, "sourced-data"⟩⟩

/-- The iteration order of `IntoIterator for TrustVector` (by key 0..7). -/
def claims (tv : TrustVector) : List TrustClaim :=
  [tv.instance_identity, tv.configuration, tv.executables, tv.file_system,
   tv.hardware, tv.runtime_opaque, tv.storage_opaque, tv.sourced_data]

/-- Embeds `TrustVector::any_set`. -/
def any_set (tv : TrustVector) : Bool := tv.claims.any (·.is_set)

/-- Embeds `TrustVector::mut_by_name` followed by `claim.set(val)`, the
combination used by the deserializer. -/
def setByName (tv : TrustVector) (name : String) (v : Int) :
    Except Error TrustVector :=
  match name with
  | "instance-identity" => .ok { tv with instance_identity := tv.instance_identity.set v }
  | "configuration" => .ok { tv with configuration := tv.configuration.set v }
  | "executables" => .ok { tv with executables := tv.executables.set v }
  | "file-system" => .ok { tv with file_system := tv.file_system.set v }
  | "hardware" => .ok { tv with hardware := tv.hardware.set v }
  | "runtime-opaque" => .ok { tv with runtime_opaque := tv.runtime_opaque.set v }
  | "storage-opaque" => .ok { tv with storage_opaque := tv.storage_opaque.set v }
  | "sourced-data" => .ok { tv with sourced_data := tv.sourced_data.set v }
  | _ => .error (.InvalidName name)

/-- Embeds `TrustVector::mut_by_key` followed by `claim.set(val)`, the
combination used by the binary-mode deserializer. -/
def setByKey (tv : TrustVector) (key : Int) (v : Int) :
    Except Error TrustVector :=
  if key = 0 then .ok { tv with instance_identity := tv.instance_identity.set v }
  else if key = 1 then .ok { tv with configuration := tv.configuration.set v }
  else if key = 2 then .ok { tv with executables := tv.executables.set v }
  else if key = 3 then .ok { tv with file_system := tv.file_system.set v }
  else if key = 4 then .ok { tv with hardware := tv.hardware.set v }
  else if key = 5 then .ok { tv with runtime_opaque := tv.runtime_opaque.set v }
  else if key = 6 then .ok { tv with storage_opaque := tv.storage_opaque.set v }
  else if key = 7 then .ok { tv with sourced_data := tv.sourced_data.set v }
  else .error (.InvalidKey key)

/-- Embeds `impl Serialize for TrustVector`: one entry per set claim, in
iteration order, keyed by tag (human-readable) or key (binary). -/
def serializeWire (hr : Bool) (tv : TrustVector) : Wire :=
  .map (tv.claims.filterMap fun c =>
    if c.is_set then
      some (if hr then (.text c.desc.name, .int c.valueFn)
            else (.int c.desc.key, .int c.valueFn))
    else none)

/-- One step of `TrustVectorVisitor::visit_map`: an entry is a claim tag
(or key, with the i32 range check of `next_key::<i32>`) paired with an i8
value; unknown identifiers are errors. -/
def deserializeStep (hr : Bool) (tv : TrustVector) (entry : Wire × Wire) :
    Except String TrustVector :=
  match hr, entry with
  | true, (.text k, .int v) =>
      if -128 ≤ v ∧ v ≤ 127 then (tv.setByName k v).mapError Error.display
      else .error "invalid value: integer out of i8 range"
  | false, (.int k, .int v) =>
      if -(2 ^ 31) ≤ k ∧ k < 2 ^ 31 then
        if -128 ≤ v ∧ v ≤ 127 then (tv.setByKey k v).mapError Error.display
        else .error "invalid value: integer out of i8 range"
      else .error "invalid value: integer out of i32 range"
  | true, _ => .error "invalid type: expected a claim tag and an i8 value"
  | false, _ => .error "invalid type: expected a claim key and an i8 value"

/-- Embeds `TrustVectorVisitor::visit_map` (src/trust/vector.rs). -/
def deserializeWire (hr : Bool) : Wire → Except String TrustVector
  | .map entries => entries.foldlM (deserializeStep hr) TrustVector.new
  | _ => .error "invalid type: expected a map of claim tags or keys to their values"

/-- Embeds the derived `PartialEq` of `TrustVector`: field-wise comparison
through `TrustClaim`'s custom `PartialEq` (effective values only). -/
def tvEq (a b : TrustVector) : Bool :=
  (a.claims.zip b.claims).all fun p => p.1.eqClaim p.2

end TrustVector

/-! ## VerifierID (src/id.rs) -/

/-- Embeds `VerifierID` from src/id.rs. -/
structure VerifierID where
  build : String
  developer : String
deriving DecidableEq, Repr

namespace VerifierID

/-- Embeds `VerifierID::new`. -/
def new : VerifierID := ⟨"", ""⟩

/-- Embeds `VerifierID::validate` (src/id.rs). Note the source reports
"empty build" for an empty developer as well — a copy-paste slip kept
faithfully here. -/
def validate (v : VerifierID) : Except Error Unit :=
  if v.build = "" then .error (.ValidationError "empty build")
  else if v.developer = "" then .error (.ValidationError "empty build")
  else .ok ()

/-- Embeds `impl Serialize for VerifierID`: developer then build, under
string names (human-readable) or keys 0/1 (binary). -/
def serializeWire (hr : Bool) (v : VerifierID) : Wire :=
  if hr then .map [(.text "developer", .text v.developer), (.text "build", .text v.build)]
  else .map [(.int 0, .text v.developer), (.int 1, .text v.build)]

/-- One step of `VerifierIDVisitor::visit_map`: unlike the Ear/Appraisal
visitors, unknown names and keys are rejected. -/
def deserializeStep (hr : Bool) (v : VerifierID) (entry : Wire × Wire) :
    Except String VerifierID :=
  match hr, entry with
  | true, (.text "developer", .text s) => .ok { v with developer := s }
  | true, (.text "build", .text s) => .ok { v with build := s }
  | true, (.text n, _) =>
      if n = "developer" ∨ n = "build" then .error "invalid type: expected a string"
      else .error (Error.display (.InvalidName n))
  | false, (.int 0, .text s) => .ok { v with developer := s }
  | false, (.int 1, .text s) => .ok { v with build := s }
  | false, (.int k, _) =>
      if k = 0 ∨ k = 1 then .error "invalid type: expected a string"
      else .error (Error.display (.InvalidKey k))
  | _, _ => .error "invalid type: expected a map key"

/-- Embeds `VerifierIDVisitor::visit_map` (src/id.rs). -/
def deserializeWire (hr : Bool) : Wire → Except String VerifierID
  | .map entries => entries.foldlM (deserializeStep hr) VerifierID.new
  | _ => .error "invalid type: expected a CBOR map or JSON object"

end VerifierID

/-! ## KeyAttestation (src/key.rs) -/

/-- Embeds `KeyAttestation` from src/key.rs. -/
structure KeyAttestation where
  pub_key : List Nat
deriving DecidableEq, Repr

namespace KeyAttestation

/-- Embeds `KeyAttestation::new`. -/
def new : KeyAttestation := ⟨[]⟩

/-- Embeds `impl Serialize for KeyAttestation`: the public key under
"akpub" (human-readable) or key 0 (binary). -/
def serializeWire (hr : Bool) (k : KeyAttestation) : Wire :=
  if hr then .map [(.text "akpub", bytesSerializeWire k.pub_key true)]
  else .map [(.int 0, bytesSerializeWire k.pub_key false)]

/-- One step of `KeyAttestationVisitor::visit_map`: unknown names and keys
are rejected. -/
def deserializeStep (hr : Bool) (_k : KeyAttestation) (entry : Wire × Wire) :
    Except String KeyAttestation :=
  match hr, entry with
  | true, (.text "akpub", w) => do .ok ⟨← bytesDeserializeWire w⟩
  | true, (.text n, _) => .error (Error.display (.InvalidName n))
  | false, (.int 0, w) => do .ok ⟨← bytesDeserializeWire w⟩
  | false, (.int n, _) => .error (Error.display (.InvalidKey n))
  | _, _ => .error "invalid type: expected a map key"

/-- Embeds `KeyAttestationVisitor::visit_map` (src/key.rs). -/
def deserializeWire (hr : Bool) : Wire → Except String KeyAttestation
  | .map entries => entries.foldlM (deserializeStep hr) KeyAttestation.new
  | _ => .error "invalid type: expected a CBOR map or JSON object"

end KeyAttestation

/-! ## BTreeMap helpers, Appraisal and Ear (src/appraisal.rs, src/ear.rs) -/

/-- `BTreeMap<String, α>` modelled as an association list kept sorted by
key; insertion replaces an existing binding, mirroring `BTreeMap::insert`
and the iteration order entity serialization relies on. -/
def btInsert {α : Type} : List (String × α) → String → α → List (String × α)
  | [], k, v => [(k, v)]
  | (k', v') :: rest, k, v =>
      if k = k' then (k, v) :: rest
      else if k < k' then (k, v) :: (k', v') :: rest
      else (k', v') :: btInsert rest k v

/-- serde serialization of a `BTreeMap<String, α>`: one entry per binding,
in iteration order. -/
def serStrMap {α : Type} (serVal : α → Wire) (m : List (String × α)) : Wire :=
  .map (m.map fun p => (.text p.1, serVal p.2))

/-- serde deserialization of a `BTreeMap<String, α>`: string keys, values
decoded by `decVal`, inserted in wire order. -/
def decodeStrMap {α : Type} (decVal : Wire → Except String α) :
    Wire → Except String (List (String × α))
  | .map entries =>
      entries.foldlM
        (fun acc kv =>
          match kv with
          | (.text k, v) => do pure (btInsert acc k (← decVal v))
          | _ => .error "invalid type: map key must be a string")
        []
  | _ => .error "invalid type: expected a map"

/-- serde deserialization of a `String` field. -/
def decodeString : Wire → Except String String
  | .text s => .ok s
  | _ => .error "invalid type: expected a string"

/-- serde deserialization of an `i64` field. -/
def decodeI64 : Wire → Except String Int
  | .int i =>
      if -(2 ^ 63) ≤ i ∧ i < 2 ^ 63 then .ok i
      else .error "invalid value: integer out of i64 range"
  | _ => .error "invalid type: expected an integer"

/-- The flattened item sequence of a wire map's contents. The binary
engine (ciborium) hands a map visitor its contents item-wise: `next_key`
and `next_value` each decode one data item from the stream, with no
pairing enforced between the two — so a visitor that reads a key and
never calls `next_value` leaves the value item in the stream, and the
following `next_key` call consumes that item as a key. The binary-mode
entity visitors below are therefore driven over this flattened sequence. -/
def mapItems : List (Wire × Wire) → List Wire
  | [] => []
  | (k, v) :: rest => k :: v :: mapItems rest

/-- Embeds `Appraisal` from src/appraisal.rs (this version of the source
has no `extensions` field). -/
structure Appraisal where
  status : TrustTier
  trust_vector : TrustVector
  policy_id : Option String
  annotated_evidence : List (String × RawValue)
  policy_claims : List (String × RawValue)
  key_attestation : Option KeyAttestation

namespace Appraisal

/-- Embeds `Appraisal::new`. -/
def new : Appraisal := ⟨.None, .new, none, [], [], none⟩

/-- Embeds `impl Serialize for Appraisal` (src/appraisal.rs lines 63-113):
status always; trust vector only if any claim is set; policy id if
present; the two annotation maps if non-empty. Note: the serializer emits
no entry for `key_attestation` in either mode, although the deserializer
below reads one — kept faithfully from the source. -/
def serializeWire (hr : Bool) (a : Appraisal) : Wire :=
  if hr then
    .map
      ([(.text "ear.status", TrustTier.serializeWire true a.status)] ++
       (if a.trust_vector.any_set then
          [(.text "ear.trustworthiness-vector", a.trust_vector.serializeWire true)]
        else []) ++
       (match a.policy_id with
        | some pid => [((.text "ear.appraisal-policy-id" : Wire), (.text pid : Wire))]
        | none => []) ++
       (if a.annotated_evidence.isEmpty then []
        else [(.text "ear.veraison.annotated-evidence",
               serStrMap (RawValue.serializeWire true) a.annotated_evidence)]) ++
       (if a.policy_claims.isEmpty then []
        else [(.text "ear.veraison.policy-claims",
               serStrMap (RawValue.serializeWire true) a.policy_claims)]))
  else
    .map
      ([(.int 1000, TrustTier.serializeWire false a.status)] ++
       (if a.trust_vector.any_set then
          [(.int 1001, a.trust_vector.serializeWire false)]
        else []) ++
       (match a.policy_id with
        | some pid => [((.int 1003 : Wire), (.text pid : Wire))]
        | none => []) ++
       (if a.annotated_evidence.isEmpty then []
        else [(.int (-70000),
               serStrMap (RawValue.serializeWire false) a.annotated_evidence)]) ++
       (if a.policy_claims.isEmpty then []
        else [(.int (-70001),
               serStrMap (RawValue.serializeWire false) a.policy_claims)]))

/-- `AppraisalVisitor::visit_map` (src/appraisal.rs lines 140-192),
human-readable mode: known names decode their value into place and the
loop continues. The unknown-name arm `Some(_) => ()` (line 166) reads the
name but never calls `next_value`; serde_json's `MapAccess` then rejects
the loop's following `next_key` call unconditionally, because the text
parser still sits before the entry's colon and expects the value to have
been consumed — so the visit fails whenever an unknown name is read. The
model surfaces that engine error at the unknown name itself, which gives
the same `visit_map` result (the loop always issues another `next_key`
after the arm). -/
def visitMapJson (a : Appraisal) : List (Wire × Wire) → Except String Appraisal
  | [] => .ok a
  | (k, v) :: rest =>
      match k with
      | .text s =>
          if s = "ear.status" then do
            visitMapJson { a with status := ← TrustTier.deserializeWire v } rest
          else if s = "ear.trustworthiness-vector" then do
            visitMapJson { a with trust_vector := ← TrustVector.deserializeWire true v } rest
          else if s = "ear.appraisal-policy-id" then do
            visitMapJson { a with policy_id := some (← decodeString v) } rest
          else if s = "ear.veraison.annotated-evidence" then do
            visitMapJson
              { a with annotated_evidence := ← decodeStrMap RawValue.deserializeWire v } rest
          else if s = "ear.veraison.policy-claims" then do
            visitMapJson
              { a with policy_claims := ← decodeStrMap RawValue.deserializeWire v } rest
          else if s = "ear.veraison.key-attestation" then do
            visitMapJson
              { a with key_attestation := some (← KeyAttestation.deserializeWire true v) } rest
          else .error "map entry value was not consumed before the next key read"
      | _ => .error "invalid type: expected a string key"

/-- `AppraisalVisitor::visit_map` (src/appraisal.rs lines 140-192), binary
mode, driven over the flattened item sequence (see `mapItems`): a known
key consumes the following item as its value; the unknown-key arm
`Some(_) => ()` (line 185) consumes nothing further, so the stray value
item is read by the loop's next `next_key::<i32>` — misparsed as a key if
it is an integer, a decode error otherwise. -/
def visitMapCbor (a : Appraisal) : List Wire → Except String Appraisal
  | [] => .ok a
  | .int k :: rest =>
      if ¬(-(2 ^ 31) ≤ k ∧ k < 2 ^ 31) then
        .error "invalid value: integer out of i32 range"
      else if k = 1000 then
        match rest with
        | [] => .error "unexpected end of map contents"
        | v :: rest2 => do
            visitMapCbor { a with status := ← TrustTier.deserializeWire v } rest2
      else if k = 1001 then
        match rest with
        | [] => .error "unexpected end of map contents"
        | v :: rest2 => do
            visitMapCbor { a with trust_vector := ← TrustVector.deserializeWire false v } rest2
      else if k = 1003 then
        match rest with
        | [] => .error "unexpected end of map contents"
        | v :: rest2 => do
            visitMapCbor { a with policy_id := some (← decodeString v) } rest2
      else if k = -70000 then
        match rest with
        | [] => .error "unexpected end of map contents"
        | v :: rest2 => do
            visitMapCbor
              { a with annotated_evidence := ← decodeStrMap RawValue.deserializeWire v } rest2
      else if k = -70001 then
        match rest with
        | [] => .error "unexpected end of map contents"
        | v :: rest2 => do
            visitMapCbor
              { a with policy_claims := ← decodeStrMap RawValue.deserializeWire v } rest2
      else if k = -70002 then
        match rest with
        | [] => .error "unexpected end of map contents"
        | v :: rest2 => do
            visitMapCbor
              { a with key_attestation := some (← KeyAttestation.deserializeWire false v) } rest2
      else visitMapCbor a rest
  | _ :: _ => .error "invalid type: expected an integer key"

/-- Embeds `AppraisalVisitor::visit_map`: drive the mode's visitor loop
over an empty appraisal; no validation afterwards. -/
def deserializeWire (hr : Bool) : Wire → Except String Appraisal
  | .map entries =>
      if hr then visitMapJson Appraisal.new entries
      else visitMapCbor Appraisal.new (mapItems entries)
  | _ => .error "invalid type: expected a CBOR map or JSON object"

end Appraisal

/-- Pairwise equality of two annotation maps, embedding `PartialEq` of
`BTreeMap<String, RawValue>`. -/
def rawMapEq : List (String × RawValue) → List (String × RawValue) → Bool
  | [], [] => true
  | (k, v) :: as_, (l, w) :: bs => k = l && rawEq v w && rawMapEq as_ bs
  | _, _ => false

/-- Equality of optional values under an element equality. -/
def optEqWith {α : Type} (eq : α → α → Bool) : Option α → Option α → Bool
  | none, none => true
  | some a, some b => eq a b
  | _, _ => false

/-- Embeds the derived `PartialEq` of `Appraisal` (src/appraisal.rs):
field-wise, with `TrustVector`'s value-based claim comparison. -/
def appraisalEq (a b : Appraisal) : Bool :=
  a.status = b.status && TrustVector.tvEq a.trust_vector b.trust_vector &&
  a.policy_id = b.policy_id && rawMapEq a.annotated_evidence b.annotated_evidence &&
  rawMapEq a.policy_claims b.policy_claims &&
  a.key_attestation = b.key_attestation

/-- Embeds `Ear` from src/ear.rs (this version of the source has no
`extensions` field). -/
structure Ear where
  profile : String
  iat : Int
  vid : VerifierID
  submods : List (String × Appraisal)
  nonce : Option Nonce
  raw_evidence : Option (List Nat)

namespace Ear

/-- Embeds `Ear::new`. -/
def new : Ear := ⟨"", 0, VerifierID.new, [], none, none⟩

/-- Embeds `Ear::validate` (src/ear.rs lines 325-349): empty profile,
empty submods, zero iat, then the verifier id, whose message is prefixed
with "verifier-id: ". The checks run in that order, so the first failing
one names the error. -/
def validate (e : Ear) : Except Error Unit :=
  if e.profile = "" then .error (.ValidationError "empty profile")
  else if e.submods.isEmpty then .error (.ValidationError "empty submods")
  else if e.iat = 0 then .error (.ValidationError "iat unset")
  else
    match e.vid.validate with
    | .ok _ => .ok ()
    | .error err =>
        let msg := match err with
          | .ValidationError s => s
          | other => other.display
        .error (.ValidationError ("verifier-id: " ++ msg))

/-- Embeds `impl Serialize for Ear` (src/ear.rs lines 366-411): validation
runs first (its typed error surfacing through `Error::custom` as the
display string), then the field table entries, nonce and raw evidence only
when present. -/
def serializeWire (hr : Bool) (e : Ear) : Except String Wire := do
  (e.validate).mapError Error.display
  let submodsW := serStrMap (Appraisal.serializeWire hr) e.submods
  if hr then do
    let base : List (Wire × Wire) :=
      [(.text "eat_profile", .text e.profile), (.text "iat", .int e.iat),
       (.text "ear.verifier-id", e.vid.serializeWire true),
       (.text "submods", submodsW)]
    let withNonce ← match e.nonce with
      | some n => do pure (base ++ [((.text "eat_nonce" : Wire), ← n.serializeWire true)])
      | none => pure base
    let withRaw := match e.raw_evidence with
      | some r => withNonce ++ [(.text "ear.raw-evidence", bytesSerializeWire r true)]
      | none => withNonce
    pure (.map withRaw)
  else do
    let base : List (Wire × Wire) :=
      [(.int 265, .text e.profile), (.int 6, .int e.iat),
       (.int 1004, e.vid.serializeWire false),
       (.int 266, submodsW)]
    let withNonce ← match e.nonce with
      | some n => do pure (base ++ [((.int 10 : Wire), ← n.serializeWire false)])
      | none => pure base
    let withRaw := match e.raw_evidence with
      | some r => withNonce ++ [(.int 1002, bytesSerializeWire r false)]
      | none => withNonce
    pure (.map withRaw)

/-- `EarVisitor::visit_map` (src/ear.rs lines 437-475), human-readable
mode: known names decode their value into place and the loop continues.
The unknown-name arm `Some(_) => ()` (line 454, "ignore unknown
extensions") reads the name but never calls `next_value`; serde_json's
`MapAccess` then rejects the loop's following `next_key` call
unconditionally, because the text parser still sits before the entry's
colon and expects the value to have been consumed — so the visit fails
whenever an unknown name is read. The model surfaces that engine error at
the unknown name itself, which gives the same `visit_map` result (the
loop always issues another `next_key` after the arm). -/
def visitMapJson (e : Ear) : List (Wire × Wire) → Except String Ear
  | [] => .ok e
  | (k, v) :: rest =>
      match k with
      | .text s =>
          if s = "eat_profile" then do
            visitMapJson { e with profile := ← decodeString v } rest
          else if s = "iat" then do
            visitMapJson { e with iat := ← decodeI64 v } rest
          else if s = "ear.verifier-id" then do
            visitMapJson { e with vid := ← VerifierID.deserializeWire true v } rest
          else if s = "submods" then do
            visitMapJson
              { e with submods := ← decodeStrMap (Appraisal.deserializeWire true) v } rest
          else if s = "eat_nonce" then do
            visitMapJson { e with nonce := some (← Nonce.deserializeWire v) } rest
          else if s = "ear.raw-evidence" then do
            visitMapJson { e with raw_evidence := some (← bytesDeserializeWire v) } rest
          else .error "map entry value was not consumed before the next key read"
      | _ => .error "invalid type: expected a string key"

/-- `EarVisitor::visit_map` (src/ear.rs lines 437-475), binary mode,
driven over the flattened item sequence (see `mapItems`): a known key
consumes the following item as its value; the unknown-key arm
`Some(_) => ()` (line 466) consumes nothing further, so the stray value
item is read by the loop's next `next_key::<i32>` — misparsed as a key if
it is an integer, a decode error otherwise. -/
def visitMapCbor (e : Ear) : List Wire → Except String Ear
  | [] => .ok e
  | .int k :: rest =>
      if ¬(-(2 ^ 31) ≤ k ∧ k < 2 ^ 31) then
        .error "invalid value: integer out of i32 range"
      else if k = 265 then
        match rest with
        | [] => .error "unexpected end of map contents"
        | v :: rest2 => do
            visitMapCbor { e with profile := ← decodeString v } rest2
      else if k = 6 then
        match rest with
        | [] => .error "unexpected end of map contents"
        | v :: rest2 => do
            visitMapCbor { e with iat := ← decodeI64 v } rest2
      else if k = 1004 then
        match rest with
        | [] => .error "unexpected end of map contents"
        | v :: rest2 => do
            visitMapCbor { e with vid := ← VerifierID.deserializeWire false v } rest2
      else if k = 266 then
        match rest with
        | [] => .error "unexpected end of map contents"
        | v :: rest2 => do
            visitMapCbor
              { e with submods := ← decodeStrMap (Appraisal.deserializeWire false) v } rest2
      else if k = 10 then
        match rest with
        | [] => .error "unexpected end of map contents"
        | v :: rest2 => do
            visitMapCbor { e with nonce := some (← Nonce.deserializeWire v) } rest2
      else if k = 1002 then
        match rest with
        | [] => .error "unexpected end of map contents"
        | v :: rest2 => do
            visitMapCbor { e with raw_evidence := some (← bytesDeserializeWire v) } rest2
      else visitMapCbor e rest
  | _ :: _ => .error "invalid type: expected an integer key"

/-- Embeds `EarVisitor::visit_map` (src/ear.rs): drive the mode's visitor
loop over an empty ear, then run `validate`, failing the whole decode if
it fails. -/
def deserializeWire (hr : Bool) : Wire → Except String Ear
  | .map entries => do
      let e ← (if hr then visitMapJson Ear.new entries
               else visitMapCbor Ear.new (mapItems entries))
      (e.validate).mapError Error.display
      pure e
  | _ => .error "invalid type: expected a CBOR map or JSON object"

end Ear

/-- Pairwise equality of the submods maps. -/
def submodsEq : List (String × Appraisal) → List (String × Appraisal) → Bool
  | [], [] => true
  | (k, v) :: as_, (l, w) :: bs => k = l && appraisalEq v w && submodsEq as_ bs
  | _, _ => false

/-- Embeds the derived `PartialEq` of `Ear` (src/ear.rs): field-wise. -/
def earEq (a b : Ear) : Bool :=
  a.profile = b.profile && a.iat = b.iat && a.vid = b.vid &&
  submodsEq a.submods b.submods && a.nonce = b.nonce &&
  a.raw_evidence = b.raw_evidence

/-! ## Extensions (src/extension.rs)

src/extension.rs uses `Error::ExtensionError` and `Error::ProfileError`;
the snapshot's src/error.rs predates those constructors, so they are added
here following the error taxonomy of spec §7 (display pattern as for the
other string-carrying constructors). -/

/-- Core `Bool` under another name: in declarations named under
`ExtensionKind`/`ExtensionValue`, the constructors named `Bool` and
`String` shadow the core types. -/
abbrev CoreBool := Bool

/-- Core `String` under another name (see `CoreBool`). -/
abbrev CoreString := String

/-- Embeds `ExtensionKind` from src/extension.rs. -/
inductive ExtensionKind where
  | Unset
  | Bool
  | String
  | Bytes
  | Integer
  | Float
  | Array
  | Map
deriving DecidableEq, Repr

/-- The Rust `Debug` rendering of an `ExtensionKind`, used inside error
messages. -/
def ExtensionKind.debugName : ExtensionKind → CoreString
  | .Unset => "Unset"
  | .Bool => "Bool"
  | .String => "String"
  | .Bytes => "Bytes"
  | .Integer => "Integer"
  | .Float => "Float"
  | .Array => "Array"
  | .Map => "Map"

/-- Embeds `ExtensionValue` from src/extension.rs (`Float` carries the
`f64` bit pattern). -/
inductive ExtensionValue where
  | Unset
  | Bool (b : CoreBool)
  | String (s : CoreString)
  | Bytes (b : List Nat)
  | Integer (i : Int)
  | Float (bits : Nat)
  | Array (vs : List ExtensionValue)
  | Map (es : List (ExtensionValue × ExtensionValue))

/-- Embeds `ExtensionValue::kind`. -/
def ExtensionValue.kind : ExtensionValue → ExtensionKind
  | .Unset => .Unset
  | .Bool _ => .Bool
  | .String _ => .String
  | .Bytes _ => .Bytes
  | .Integer _ => .Integer
  | .Float _ => .Float
  | .Array _ => .Array
  | .Map _ => .Map

/-- Embeds `ExtensionValue::is`. -/
def ExtensionValue.is (v : ExtensionValue) (k : ExtensionKind) : CoreBool :=
  v.kind = k

/-- Embeds `ExtensionValue::can_convert` (src/extension.rs lines 61-67):
declares exactly the String→Bytes and Bytes→String conversions. -/
def ExtensionValue.can_convert (v : ExtensionValue) (k : ExtensionKind) : CoreBool :=
  match v.kind, k with
  | .String, .Bytes => true
  | .Bytes, .String => true
  | _, _ => false

/-- Embeds `ExtensionValue::convert` (src/extension.rs lines 69-81): only
the conversion into Bytes from a (base64) String is implemented
(`Bytes::try_from(&str)` is the spec-modelled base64 decoder, see
`base64Decode`); every other request — including into String from Bytes,
which `can_convert` declares possible — is an error. -/
def ExtensionValue.convert (v : ExtensionValue) (k : ExtensionKind) :
    Except Error ExtensionValue :=
  match k with
  | .Bytes =>
      match v with
      | .String s => (base64Decode s).map ExtensionValue.Bytes
      | other =>
          .error (.ExtensionError
            ("cannot convert into Bytes from " ++ other.kind.debugName))
  | _ =>
      .error (.ExtensionError
        ("cannot convert into " ++ k.debugName ++ " from any other variant"))

mutual

/-- Embeds the derived `PartialEq` of `ExtensionValue`: structural
equality (`f64` fields by bit pattern). -/
def extValEq : ExtensionValue → ExtensionValue → Bool
  | .Unset, .Unset => true
  | .Bool a, .Bool b => a = b
  | .String a, .String b => a = b
  | .Bytes a, .Bytes b => a = b
  | .Integer a, .Integer b => a = b
  | .Float a, .Float b => a = b
  | .Array a, .Array b => extValEqList a b
  | .Map a, .Map b => extValEqPairs a b
  | _, _ => false

def extValEqList : List ExtensionValue → List ExtensionValue → Bool
  | [], [] => true
  | a :: as_, b :: bs => extValEq a b && extValEqList as_ bs
  | _, _ => false

def extValEqPairs :
    List (ExtensionValue × ExtensionValue) → List (ExtensionValue × ExtensionValue) →
      Bool
  | [], [] => true
  | (k, v) :: as_, (l, w) :: bs => extValEq k l && extValEq v w && extValEqPairs as_ bs
  | _, _ => false

end

/-- Embeds `ExtensionEntry` from src/extension.rs. -/
structure ExtensionEntry where
  kind : ExtensionKind
  value : ExtensionValue

/-- Embeds `CollectedKey` from src/extension.rs. -/
inductive CollectedKey where
  | key (k : Int)
  | name (n : String)
deriving DecidableEq, Repr

/-- Association-list lookup (the `BTreeMap::get` of the registry maps;
iteration order of the underlying BTreeMaps is not relied on by any claim
settled here). -/
def assocFind {κ ν : Type} [DecidableEq κ] : List (κ × ν) → κ → Option ν
  | [], _ => none
  | (k, v) :: rest, key => if k = key then some v else assocFind rest key

/-- Embeds `Extensions` from src/extension.rs. The Rust struct shares one
`Rc<RefCell<ExtensionEntry>>` cell between the by-key and by-name maps;
here the cells live in the `slots` arena and both maps store the arena
index, so a mutation through either access path is seen through both. -/
structure Extensions where
  slots : List ExtensionEntry
  by_key : List (Int × Nat)
  by_name : List (String × Nat)
  collected : List (CollectedKey × ExtensionValue)

namespace Extensions

/-- Embeds `Extensions::new`. -/
def new : Extensions := ⟨[], [], [], []⟩

/-- Embeds `Extensions::have_key`. -/
def have_key (x : Extensions) (k : Int) : Bool := (assocFind x.by_key k).isSome

/-- Embeds `Extensions::have_name`. -/
def have_name (x : Extensions) (n : String) : Bool :=
  (assocFind x.by_name n).isSome

/-- The value stored in an arena slot (`entry.borrow().value`). -/
def slotValue (x : Extensions) (i : Nat) : ExtensionValue :=
  ((x.slots.getD i ⟨.Unset, .Unset⟩)).value

/-- Embeds `Extensions::get_by_key`. -/
def get_by_key (x : Extensions) (k : Int) : Option ExtensionValue :=
  (assocFind x.by_key k).map x.slotValue

/-- Embeds `Extensions::get_by_name`. -/
def get_by_name (x : Extensions) (n : String) : Option ExtensionValue :=
  (assocFind x.by_name n).map x.slotValue

/-- Embeds the `collected` lookup inside `Extensions::register`: the key
form is consulted first, then the name form. -/
def collectedLookup (x : Extensions) (k : Int) (n : String) :
    Option ExtensionValue :=
  (assocFind x.collected (.key k)).orElse fun _ =>
    assocFind x.collected (.name n)

/-- Shared tail of `Extensions::register`: append the new entry cell to the
arena and point both maps at it. -/
def addSlot (x : Extensions) (n : String) (k : Int) (kind : ExtensionKind)
    (v : ExtensionValue) : Extensions :=
  { x with
    slots := x.slots ++ [⟨kind, v⟩]
    by_key := x.by_key ++ [(k, x.slots.length)]
    by_name := x.by_name ++ [(n, x.slots.length)] }

/-- Embeds `Extensions::register` (src/extension.rs lines 254-309): fails
on a duplicate name or key; otherwise creates a slot of the given kind,
adopting a previously collected value when its kind matches, converting it
when `can_convert` allows and `convert` succeeds, and failing — before the
slot is inserted — when the kinds conflict or the conversion errors. -/
def register (x : Extensions) (n : String) (k : Int) (kind : ExtensionKind) :
    Except Error Extensions :=
  if x.have_name n then
    .error (.ExtensionError ("name " ++ n ++ " already registered"))
  else if x.have_key k then
    .error (.ExtensionError ("key " ++ toString k ++ " already registered"))
  else
    match x.collectedLookup k n with
    | some v =>
        if v.is kind then .ok (x.addSlot n k kind v)
        else if v.can_convert kind then
          match v.convert kind with
          | .ok v2 => .ok (x.addSlot n k kind v2)
          | .error e => .error e
        else
          .error (.ExtensionError
            ("kind mismatch: value is " ++ v.kind.debugName ++ ", but want " ++
              kind.debugName))
    | none => .ok (x.addSlot n k kind .Unset)

/-- Embeds `Extensions::set_by_key` (src/extension.rs lines 345-361):
fails if unregistered or on a kind mismatch, otherwise mutates the shared
slot cell in place. -/
def set_by_key (x : Extensions) (k : Int) (v : ExtensionValue) :
    Except Error Extensions :=
  match assocFind x.by_key k with
  | none => .error (.ExtensionError (toString k ++ " not registered"))
  | some i =>
      let entry := x.slots.getD i ⟨.Unset, .Unset⟩
      if !(v.is entry.kind) then
        .error (.ExtensionError
          ("kind mismatch: value is " ++ v.kind.debugName ++ ", but want " ++
            entry.kind.debugName))
      else .ok { x with slots := x.slots.set i ⟨entry.kind, v⟩ }

/-- Embeds `Extensions::set_by_name` (src/extension.rs lines 363-379). -/
def set_by_name (x : Extensions) (n : String) (v : ExtensionValue) :
    Except Error Extensions :=
  match assocFind x.by_name n with
  | none => .error (.ExtensionError (n ++ " not registered"))
  | some i =>
      let entry := x.slots.getD i ⟨.Unset, .Unset⟩
      if !(v.is entry.kind) then
        .error (.ExtensionError
          ("kind mismatch: value is " ++ v.kind.debugName ++ ", but want " ++
            entry.kind.debugName))
      else .ok { x with slots := x.slots.set i ⟨entry.kind, v⟩ }

end Extensions

/-- Embeds `impl PartialEq for Extensions` (src/extension.rs lines
478-504): every slot of the left registry must have a matching value in
the right one — the right registry's extra slots are never examined. -/
def extEq (a b : Extensions) : Bool :=
  (a.by_name.all fun p =>
    match b.get_by_name p.1 with
    | some ov => extValEq (a.slotValue p.2) ov
    | none => false) &&
  (a.by_key.all fun p =>
    match b.get_by_key p.1 with
    | some ov => extValEq (a.slotValue p.2) ov
    | none => false)

/-! ## COSE signing (src/ear.rs, src/algorithm.rs) -/

/-- Embeds `Algorithm` from src/algorithm.rs. -/
inductive Algorithm where
  | PS256
  | PS384
  | PS512
  | ES256
  | ES384
  | ES512
  | EdDSA
deriving DecidableEq, Repr

/-- The Rust `Debug` rendering of an `Algorithm` (used in the
`format!("algorithm {alg:?} not supported")` messages). -/
def Algorithm.debugName : Algorithm → String
  | .PS256 => "PS256"
  | .PS384 => "PS384"
  | .PS512 => "PS512"
  | .ES256 => "ES256"
  | .ES384 => "ES384"
  | .ES512 => "ES512"
  | .EdDSA => "EdDSA"

/-- Embeds `alg_to_cose` (src/ear.rs lines 478-487) with the `cose`
crate's standard COSE algorithm identifiers (`ES256 = -7`, `ES384 = -35`,
`ES512 = -36`, `EDDSA = -8`); the PS algorithms are rejected. -/
def alg_to_cose (alg : Algorithm) : Except Error Int :=
  match alg with
  | .ES256 => .ok (-7)
  | .ES384 => .ok (-35)
  | .ES512 => .ok (-36)
  | .EdDSA => .ok (-8)
  | a => .error (.SignError ("algorithm " ++ a.debugName ++ " not supported"))

/-- The named curve reported by `EcGroup::curve_name` for the parsed EC
key (an openssl collaborator outcome). -/
inductive EcCurve where
  | prime256v1
  | secp384r1
  | secp521r1
  | unrecognized
deriving DecidableEq, Repr

/-- The data `sign_cose_bytes` extracts from a parsed openssl EC private
key: the group's curve, the affine public coordinates and the private
scalar. -/
structure EcKeyData where
  curve : Option EcCurve
  pubX : List Nat
  pubY : List Nat
  priv : List Nat

/-- The black-box openssl parse outcomes for one key blob in the chosen
`KeyFormat` (PEM or DER only selects which openssl parser runs): how the
blob parses as an EC private key (`EcKey::private_key_from_*`), and as a
generic private key reduced to raw bytes
(`PKey::private_key_from_*` + `raw_private_key`). -/
structure KeyParse where
  asEcPrivate : Except String EcKeyData
  asRawPrivate : Except String (List Nat)

/-- The `cose::keys::CoseKey` structure as populated by src/ear.rs, with
the cose crate's standard identifiers (EC2 = 2, OKP = 1, P-256 = 1,
P-384 = 2, P-521 = 3, Ed25519 = 6, sign op = 1). -/
structure CoseKey where
  kty : Option Int := none
  alg : Option Int := none
  crv : Option Int := none
  x : List Nat := []
  y : List Nat := []
  d : List Nat := []
  key_ops : List Int := []
deriving DecidableEq, Repr

/-- Embeds `Ear::sign_cose` (src/ear.rs lines 293-322) up to the black-box
cose engine: serialize the Ear in binary mode as the payload (failures
become `SignError`s), set the protected header's algorithm, reject a key
whose own declared algorithm differs, and on success hand
(header algorithm, key, payload) to the engine. -/
def signCose (e : Ear) (alg : Int) (key : CoseKey) :
    Except Error (Int × CoseKey × Wire) := do
  let payload ← (e.serializeWire false).mapError Error.SignError
  match key.alg with
  | some a =>
      if a ≠ alg then
        .error (.SignError "specified algorithm doesn't match key")
      else pure ()
  | none => pure ()
  pure (alg, key, payload)

/-- Embeds `Ear::sign_cose_bytes` (src/ear.rs lines 221-291): map the
algorithm to its COSE identifier (rejecting PS256/PS384/PS512), then build
the COSE key by algorithm family. The EC branch's source pattern is
`Algorithm::ES256 | Algorithm::ES384 | Algorithm::PS512` — `PS512` there
is unreachable (alg_to_cose already rejected it), and `ES512` therefore
falls through to the final `_ =>` arm and is reported unsupported. -/
def signCoseBytes (e : Ear) (alg : Algorithm) (kp : KeyParse) :
    Except Error (Int × CoseKey × Wire) := do
  let cose_alg ← alg_to_cose alg
  let k0 : CoseKey := { alg := some cose_alg, key_ops := [1] }
  let key ← match alg with
    | .ES256 | .ES384 | .PS512 =>
        match kp.asEcPrivate with
        | .error m => .error (.KeyError m)
        | .ok ec => do
            let crv ← match ec.curve with
              | some .prime256v1 => pure (1 : Int)
              | some .secp384r1 => pure (2 : Int)
              | some .secp521r1 => pure (3 : Int)
              | _ => .error (.KeyError "unsupported EC group")
            pure { k0 with
              kty := some 2, crv := some crv,
              x := ec.pubX, y := ec.pubY, d := ec.priv }
    | .EdDSA =>
        match kp.asRawPrivate with
        | .error m => .error (.KeyError m)
        | .ok raw =>
            pure { k0 with
              kty := some 1, crv := some 6,
              d := raw.take 32, x := raw.drop 32 }
    | a => .error (.SignError ("algorithm " ++ a.debugName ++ " not supported"))
  signCose e cose_alg key

/-- Embeds `Ear::sign_cose_pem` (src/ear.rs lines 212-214): delegates to
`sign_cose_bytes`, the PEM format choice living inside the key's parse
outcomes. -/
def signCosePem (e : Ear) (alg : Algorithm) (kp : KeyParse) :
    Except Error (Int × CoseKey × Wire) :=
  signCoseBytes e alg kp

/-- Embeds `Ear::sign_cose_der` (src/ear.rs lines 217-219). -/
def signCoseDer (e : Ear) (alg : Algorithm) (kp : KeyParse) :
    Except Error (Int × CoseKey × Wire) :=
  signCoseBytes e alg kp

/-! ## Helper predicates and sample data used by the theorems -/

/-- Whether `needle` occurs at the start of `hay`. -/
def startsWithChars : List Char → List Char → Bool
  | _, [] => true
  | [], _ :: _ => false
  | h :: hs, n :: ns => h = n && startsWithChars hs ns

/-- Whether `needle` occurs contiguously anywhere in `hay` — used to state
that an error message does or does not name a phrase. -/
def containsChars (needle : List Char) : List Char → Bool
  | [] => startsWithChars [] needle
  | c :: rest => startsWithChars (c :: rest) needle || containsChars needle rest

/-- A syntactically well-formed wire token with no submods field, mode by
mode. In human-readable mode this is the natural condition on the entry
pairs: no entry's name is "submods". In binary mode the condition must be
stated over the flattened item sequence (see `mapItems`): because the
unknown-key arm leaves its value unconsumed, a stray value item equal to
266 can itself be read in key position and would set the submods field,
so a token "with no submodule entries" is one in which the integer 266
occurs nowhere among the map's items. -/
def noSubmodsField (hr : Bool) (entries : List (Wire × Wire)) : Prop :=
  if hr then ∀ p ∈ entries, p.1 ≠ Wire.text "submods"
  else Wire.int 266 ∉ mapItems entries

/-- A concrete key attestation (8 public-key bytes). -/
def kaSample : KeyAttestation := ⟨[1, 2, 3, 4, 5, 6, 7, 8]⟩

/-- An otherwise-empty appraisal carrying `kaSample`. -/
def appraisalWithKa : Appraisal := { Appraisal.new with key_attestation := some kaSample }

/-- A fully valid Ear whose single submodule appraisal carries a key
attestation. -/
def earWithKa : Ear :=
  { profile := "test", iat := 1,
    vid := ⟨"vsts 0.0.1", "https://veraison-project.org"⟩,
    submods := [("test", appraisalWithKa)], nonce := none, raw_evidence := none }

/-- A fully valid plain Ear (one unset submodule appraisal). -/
def earPlain : Ear :=
  { profile := "test", iat := 1,
    vid := ⟨"vsts 0.0.1", "https://veraison-project.org"⟩,
    submods := [("test", Appraisal.new)], nonce := none, raw_evidence := none }

/-- The human-readable wire entries of `earPlain`, as its serializer emits
them. -/
def earPlainEntriesJson : List (Wire × Wire) :=
  [(.text "eat_profile", .text "test"), (.text "iat", .int 1),
   (.text "ear.verifier-id",
    .map [(.text "developer", .text "https://veraison-project.org"),
          (.text "build", .text "vsts 0.0.1")]),
   (.text "submods", .map [(.text "test", .map [(.text "ear.status", .text "none")])])]

/-- The binary wire entries of `earPlain`, as its serializer emits them. -/
def earPlainEntriesCbor : List (Wire × Wire) :=
  [(.int 265, .text "test"), (.int 6, .int 1),
   (.int 1004,
    .map [(.int 0, .text "https://veraison-project.org"),
          (.int 1, .text "vsts 0.0.1")]),
   (.int 266, .map [(.text "test", .map [(.int 1000, .int 0)])])]

/-- The parse outcomes of a valid P-256 EC private key blob. -/
def p256KeyParse : KeyParse :=
  ⟨.ok ⟨some .prime256v1, [11, 12], [13, 14], [15, 16]⟩, .error "not an Ed25519 key"⟩

/-- The parse outcomes of a valid P-521 EC private key blob (the matching
family for ES512). -/
def p521KeyParse : KeyParse :=
  ⟨.ok ⟨some .secp521r1, [21, 22], [23, 24], [25, 26]⟩, .error "not an Ed25519 key"⟩

/-- The parse outcomes of a valid Ed25519 private key blob (64 raw bytes:
32-byte seed then 32-byte public value). -/
def ed25519KeyParse : KeyParse :=
  ⟨.error "not an EC key", .ok ((List.replicate 32 7) ++ (List.replicate 32 9))⟩

end RustEar

namespace RustEar

/-- C1 counterexample: at the concrete claim value −32, the claim's band map
(`tierSpecC1`, exclusive bounds) yields Warning, but the program's
`TrustClaim.tier` yields Affirming, because Rust's range `(-32..32)`
contains its lower bound; the code's own unit test asserts
`claim.set(-32i8); claim.tier() == Affirming`. Hence the claim as stated is
false. -/
theorem c1_tier_exclusive_bounds_cex :
    (TrustClaim.mk (some (-32)) instanceClaimDesc).tier = TrustTier.Affirming ∧
    tierSpecC1 (-32) = TrustTier.Warning ∧
    (TrustClaim.mk (some (-32)) instanceClaimDesc).tier ≠
      tierSpecC1 (TrustClaim.mk (some (-32)) instanceClaimDesc).valueFn := by
  decide

/-- C1 (amended): for every TrustClaim whose effective value v (0 when
unset) lies in the i8 range, tier() classifies: None iff −1 ≤ v ≤ 1;
Affirming iff −32 ≤ v ≤ −2 or 2 ≤ v ≤ 31; Warning iff −96 ≤ v ≤ −33 or
32 ≤ v ≤ 95; Contraindicated iff v ≤ −97 or v ≥ 96 — i.e. the Affirming
and Warning bands include their lower bounds, and −96 is Warning. -/
theorem c1_tier_bands (c : TrustClaim)
    (h : -128 ≤ c.valueFn ∧ c.valueFn ≤ 127) :
    (c.tier = .None ↔ (-1 ≤ c.valueFn ∧ c.valueFn ≤ 1)) ∧
    (c.tier = .Affirming ↔
      ((-32 ≤ c.valueFn ∧ c.valueFn ≤ -2) ∨ (2 ≤ c.valueFn ∧ c.valueFn ≤ 31))) ∧
    (c.tier = .Warning ↔
      ((-96 ≤ c.valueFn ∧ c.valueFn ≤ -33) ∨ (32 ≤ c.valueFn ∧ c.valueFn ≤ 95))) ∧
    (c.tier = .Contraindicated ↔ (c.valueFn ≤ -97 ∨ 96 ≤ c.valueFn)) := by
  obtain ⟨h1, h2⟩ := h
  simp only [TrustClaim.tier]
  split_ifs with hn ha hw <;>
    refine ⟨?_, ?_, ?_, ?_⟩ <;>
      constructor <;>
        intro hx <;>
          first
            | rfl
            | exact absurd hx (by decide)
            | omega

/-- C1 amended witness: instantiated at the boundary value −96, which is in
the i8 range and classifies as Warning. -/
theorem c1_tier_bands_witness :
    (TrustClaim.mk (some (-96)) instanceClaimDesc).tier = TrustTier.Warning := by
  have h := c1_tier_bands (TrustClaim.mk (some (-96)) instanceClaimDesc)
    (by decide)
  exact h.2.2.1.mpr (by decide)

/-- C9: two TrustClaims compare equal exactly when their effective values
(`value()`, 0 when unset) are equal; in particular an unset claim compares
equal to a claim explicitly set to 0 although `is_set` distinguishes them. -/
theorem c9_claim_eq_by_value :
    (∀ a b : TrustClaim, a.eqClaim b = true ↔ a.valueFn = b.valueFn) ∧
    (let unsetC := TrustClaim.mk none instanceClaimDesc
     let zeroC := (TrustClaim.mk none instanceClaimDesc).set 0
     unsetC.eqClaim zeroC = true ∧
     unsetC.is_set = false ∧ zeroC.is_set = true) := by
  constructor
  · intro a b
    simp [TrustClaim.eqClaim]
  · exact ⟨by decide, by decide, by decide⟩

/-- C2 (code evaluated at the failing input): `earWithKa` passes
validation and its single appraisal carries a key attestation, yet in both
modes encoding succeeds and decoding the result yields an Ear whose
appraisal has `key_attestation = None`, so the round trip is not the
identity (`earEq` is the program's own equality): the serializer never
emits the key-attestation entry its deserializer reads. -/
theorem c2_roundtrip_drops_key_attestation :
    earWithKa.validate = .ok () ∧
    (earWithKa.submods.map fun p => (p.1, p.2.key_attestation)) =
      [("test", some kaSample)] ∧
    ((earWithKa.serializeWire true).bind (Ear.deserializeWire true)).map
        (fun y => (earEq y earWithKa,
                   y.submods.map fun p => (p.1, p.2.key_attestation))) =
      .ok (false, [("test", none)]) ∧
    ((earWithKa.serializeWire false).bind (Ear.deserializeWire false)).map
        (fun y => (earEq y earWithKa,
                   y.submods.map fun p => (p.1, p.2.key_attestation))) =
      .ok (false, [("test", none)]) :=
  ⟨rfl, rfl, rfl, rfl⟩

/-- C4 (code evaluated at the failing input): `alg_to_cose` supports ES512
(COSE identifier −36), but `sign_cose_bytes` then rejects ES512 with an
algorithm-unsupported SignError even for a valid P-521 EC key, because the
EC key-construction arm matches `ES256 | ES384 | PS512` (that `PS512` is
unreachable — already rejected — and is evidently a typo for `ES512`).
ES256, ES384 and EdDSA pass with keys of the matching family, and PS256,
PS384 and PS512 are rejected as the claim states. -/
theorem c4_cose_es512_rejected :
    alg_to_cose .ES512 = .ok (-36) ∧
    signCosePem earPlain .ES512 p521KeyParse =
      .error (.SignError "algorithm ES512 not supported") ∧
    signCoseDer earPlain .ES512 p521KeyParse =
      .error (.SignError "algorithm ES512 not supported") ∧
    (signCosePem earPlain .ES256 p256KeyParse).isOk = true ∧
    (signCosePem earPlain .EdDSA ed25519KeyParse).isOk = true ∧
    signCosePem earPlain .PS256 p256KeyParse =
      .error (.SignError "algorithm PS256 not supported") ∧
    signCosePem earPlain .PS384 p256KeyParse =
      .error (.SignError "algorithm PS384 not supported") ∧
    signCosePem earPlain .PS512 p256KeyParse =
      .error (.SignError "algorithm PS512 not supported") :=
  ⟨rfl, rfl, rfl, rfl, rfl, rfl, rfl, rfl⟩

/-- C10: `Extensions` equality is not symmetric. With `a` the empty
registry and `b` the registry obtained by registering one slot
("foo"/1/Bool, value still unset), `a == b` holds (every slot of `a` —
there are none — matches in `b`) while `b == a` fails (`b`'s slot has no
counterpart in `a`), so `b` holds a strict superset of `a`'s entries and
equality is asymmetric. -/
theorem c10_extensions_eq_asymmetric :
    Extensions.new.register "foo" 1 .Bool =
      .ok ⟨[⟨.Bool, .Unset⟩], [(1, 0)], [("foo", 0)], []⟩ ∧
    extEq Extensions.new ⟨[⟨.Bool, .Unset⟩], [(1, 0)], [("foo", 0)], []⟩ = true ∧
    extEq ⟨[⟨.Bool, .Unset⟩], [(1, 0)], [("foo", 0)], []⟩ Extensions.new = false :=
  ⟨rfl, rfl, rfl⟩

/-- C7 counterexample: the claim says text-nonce construction succeeds
exactly for 8 to 88 characters, but the source checks `str::len`, the
UTF-8 byte length: the 7-character string "£££££££" (each '£' is 2 UTF-8
bytes, 14 in all) is accepted, so a string shorter than 8 characters can
succeed, refuting the stated iff. -/
theorem c7_text_nonce_char_count_cex :
    ("£££££££" : String).length = 7 ∧
    ("£££££££" : String).utf8ByteSize = 14 ∧
    OneNonce.fromStr "£££££££" = .ok (.str "£££££££") ∧
    Nonce.fromStr "£££££££" = .ok ⟨[.str "£££££££"]⟩ :=
  ⟨rfl, rfl, rfl, rfl⟩

/-- C7 (amended): byte-nonce construction succeeds exactly for 8 to 64
bytes (8 and 64 accepted; 7 and 65 rejected with the ParseError naming the
bounds), and text-nonce construction succeeds exactly when the UTF-8 byte
length — which equals the character count for ASCII strings — is between
8 and 88 (ASCII lengths 8 and 88 accepted; 7 and 89 rejected). -/
theorem c7_nonce_length_bounds :
    (∀ b : List Nat,
      (∃ n, OneNonce.fromBytes b = .ok n) ↔ (8 ≤ b.length ∧ b.length ≤ 64)) ∧
    (∀ b : List Nat, ¬(8 ≤ b.length ∧ b.length ≤ 64) →
      OneNonce.fromBytes b =
        .error (.ParseError "nonce must be between 8 and 64 bytes")) ∧
    (∀ s : String,
      (∃ n, OneNonce.fromStr s = .ok n) ↔
        (8 ≤ s.utf8ByteSize ∧ s.utf8ByteSize ≤ 88)) ∧
    (∀ s : String, ¬(8 ≤ s.utf8ByteSize ∧ s.utf8ByteSize ≤ 88) →
      OneNonce.fromStr s =
        .error (.ParseError "nonce must be between 8 and 88 characters")) ∧
    (OneNonce.fromBytes (List.replicate 8 0)).isOk = true ∧
    (OneNonce.fromBytes (List.replicate 64 0)).isOk = true ∧
    (OneNonce.fromBytes (List.replicate 7 0)).isOk = false ∧
    (OneNonce.fromBytes (List.replicate 65 0)).isOk = false ∧
    (OneNonce.fromStr (String.mk (List.replicate 8 'a'))).isOk = true ∧
    (OneNonce.fromStr (String.mk (List.replicate 88 'a'))).isOk = true ∧
    (OneNonce.fromStr (String.mk (List.replicate 7 'a'))).isOk = false ∧
    (OneNonce.fromStr (String.mk (List.replicate 89 'a'))).isOk = false := by
  refine ⟨?_, ?_, ?_, ?_, ?_, ?_, ?_, ?_, ?_, ?_, ?_, ?_⟩
  · intro b
    unfold OneNonce.fromBytes
    split_ifs with h
    · exact ⟨fun _ => h, fun _ => ⟨_, rfl⟩⟩
    · constructor
      · rintro ⟨n, hn⟩
        simp at hn
      · intro hb
        exact absurd hb h
  · intro b hb
    unfold OneNonce.fromBytes
    exact if_neg hb
  · intro s
    unfold OneNonce.fromStr
    split_ifs with h
    · exact ⟨fun _ => h, fun _ => ⟨_, rfl⟩⟩
    · constructor
      · rintro ⟨n, hn⟩
        simp at hn
      · intro hb
        exact absurd hb h
  · intro s hs
    unfold OneNonce.fromStr
    exact if_neg hs
  all_goals rfl

/-- Successful bind on `Except` decomposes into a successful first stage
and a successful continuation. -/
theorem exceptBind_ok_iff {ε α β : Type} (m : Except ε α) (f : α → Except ε β)
    (b : β) : (m >>= f) = .ok b ↔ ∃ a, m = .ok a ∧ f a = .ok b := by
  cases m <;> simp [Bind.bind, Except.bind]

/-- `mapError` does not affect successful results. -/
theorem exceptMapError_ok_iff {ε η α : Type} (m : Except ε α) (f : ε → η)
    (a : α) : m.mapError f = .ok a ↔ m = .ok a := by
  cases m <;> simp [Except.mapError]

/-- An Ear with empty submods and non-empty profile fails validation with
exactly "empty submods". -/
theorem validate_empty_submods (e : Ear) (hs : e.submods = [])
    (hp : e.profile ≠ "") :
    e.validate = .error (.ValidationError "empty submods") := by
  unfold Ear.validate
  rw [if_neg hp, if_pos]
  simp [hs]

/-- An Ear with empty submods never validates, whatever its other
fields. -/
theorem validate_not_ok_of_empty_submods (e : Ear) (hs : e.submods = []) :
    ∀ u, e.validate ≠ .ok u := by
  intro u
  unfold Ear.validate
  by_cases hp : e.profile = ""
  · rw [if_pos hp]
    simp
  · rw [if_neg hp, if_pos (by simp [hs])]
    simp

/-- A successful run of the human-readable Ear visitor over entries none
of which carries the submods name leaves the submods of the start state
unchanged (an unknown name would have failed the visit, so success means
every entry was a known field). -/
theorem visitJson_preserves_submods :
    ∀ (entries : List (Wire × Wire)) (e0 e : Ear),
      (∀ p ∈ entries, p.1 ≠ Wire.text "submods") →
      Ear.visitMapJson e0 entries = .ok e → e.submods = e0.submods := by
  intro entries
  induction entries with
  | nil =>
      intro e0 e _ h
      simp only [Ear.visitMapJson, Except.ok.injEq] at h
      rw [← h]
  | cons p rest ih =>
      intro e0 e hall h
      obtain ⟨k, v⟩ := p
      have hrest := fun q hq => hall q (List.mem_cons_of_mem _ hq)
      cases k
      case text s =>
        have hs : Wire.text s ≠ Wire.text "submods" :=
          hall (Wire.text s, v) (List.mem_cons_self _ _)
        simp only [Ear.visitMapJson] at h
        split_ifs at h with h1 h2 h3 h4 h5 h6
        all_goals first
          | (exact absurd (by rw [h4]) hs)
          | (obtain ⟨a, _, ha⟩ := (exceptBind_ok_iff _ _ _).mp h
             rw [ih _ _ hrest ha])
      all_goals (rw [Ear.visitMapJson.eq_def] at h; simp at h)

/-- A successful run of the binary Ear visitor over an item sequence in
which the integer 266 never occurs leaves the submods of the start state
unchanged: 266 is the only key that sets submods, and with no 266 item
present, neither an aligned key nor a stray unconsumed value can ever be
read as that key. -/
theorem visitCbor_preserves_submods :
    ∀ (n : Nat) (items : List Wire) (e0 e : Ear), items.length ≤ n →
      Wire.int 266 ∉ items →
      Ear.visitMapCbor e0 items = .ok e → e.submods = e0.submods := by
  intro n
  induction n with
  | zero =>
      intro items e0 e hlen hmem h
      have hnil : items = [] := List.eq_nil_of_length_eq_zero (Nat.le_zero.mp hlen)
      subst hnil
      simp only [Ear.visitMapCbor, Except.ok.injEq] at h
      rw [← h]
  | succ n ih =>
      intro items e0 e hlen hmem h
      cases items with
      | nil =>
          simp only [Ear.visitMapCbor, Except.ok.injEq] at h
          rw [← h]
      | cons w rest =>
          have hmem2 : Wire.int 266 ∉ rest := fun hx => hmem (List.mem_cons_of_mem _ hx)
          cases w
          case int i =>
            have hi : i ≠ 266 := by
              intro hEq
              exact hmem (by rw [hEq]; exact List.mem_cons_self _ _)
            cases rest with
            | nil =>
                simp only [Ear.visitMapCbor] at h
                split_ifs at h
                all_goals (cases h <;> rfl)
            | cons v rest2 =>
                have hmem3 : Wire.int 266 ∉ rest2 :=
                  fun hy => hmem2 (List.mem_cons_of_mem _ hy)
                have hlen3 : rest2.length ≤ n := by
                  simp only [List.length_cons] at hlen; omega
                have hlen2 : (v :: rest2).length ≤ n := by
                  simp only [List.length_cons] at hlen ⊢; omega
                simp only [Ear.visitMapCbor] at h
                split_ifs at h with h1 h2 h3 h4 h5 h6 h7
                all_goals first
                  | (exact absurd h5 hi)
                  | (exact ih (v :: rest2) _ _ hlen2 hmem2 h)
                  | (cases h)
                  | (obtain ⟨x, hx1, hx⟩ := (exceptBind_ok_iff _ _ _).mp h
                     exact (ih rest2 _ _ hlen3 hmem3 hx).trans rfl)
          all_goals (rw [Ear.visitMapCbor.eq_def] at h; simp at h)

/-- C3 counterexample: the claim says serializing any Ear with empty
submods fails with a ValidationError naming "empty submods", but
validation checks the profile first: for `Ear::new()` (empty profile AND
empty submods) the error in both modes is "empty profile", whose message
does not contain "empty submods". -/
theorem c3_validation_order_cex :
    Ear.new.submods = [] ∧
    Ear.new.serializeWire true = .error "validation error: empty profile" ∧
    Ear.new.serializeWire false = .error "validation error: empty profile" ∧
    containsChars "empty submods".data "validation error: empty profile".data
      = false :=
  ⟨rfl, rfl, rfl, rfl⟩

/-- C3 (amended): (1) serializing an Ear whose profile is non-empty and
whose submods map is empty fails, in both modes, with exactly the
validation error "empty submods" (an empty-profile Ear instead reports
"empty profile", since validation checks the profile first); (2)
deserializing a syntactically well-formed token with no submods field
(see `noSubmodsField` for the mode-wise reading) never succeeds; (3) a
successful encode implies the Ear validated; (4) a decoded Ear always
validates — encode never emits, and decode never returns, an invalid
Ear. -/
theorem c3_validation_on_codec :
    (∀ (e : Ear) (hr : Bool), e.submods = [] → e.profile ≠ "" →
      e.serializeWire hr = .error "validation error: empty submods") ∧
    (∀ (hr : Bool) (entries : List (Wire × Wire)),
      noSubmodsField hr entries →
      ∀ res, Ear.deserializeWire hr (.map entries) ≠ .ok res) ∧
    (∀ (e : Ear) (hr : Bool) (w : Wire),
      e.serializeWire hr = .ok w → e.validate = .ok ()) ∧
    (∀ (hr : Bool) (w : Wire) (e : Ear),
      Ear.deserializeWire hr w = .ok e → e.validate = .ok ()) := by
  refine ⟨?_, ?_, ?_, ?_⟩
  · intro e hr hs hp
    have hv := validate_empty_submods e hs hp
    unfold Ear.serializeWire
    rw [hv]
    rfl
  · intro hr entries hns res h
    simp only [Ear.deserializeWire] at h
    obtain ⟨e1, h1, h2⟩ := (exceptBind_ok_iff _ _ _).mp h
    obtain ⟨u, hu, _⟩ := (exceptBind_ok_iff _ _ _).mp h2
    have hsub : e1.submods = Ear.new.submods := by
      cases hr
      case true =>
        simp only [noSubmodsField, reduceIte] at hns
        simp only [if_pos rfl] at h1
        exact visitJson_preserves_submods entries Ear.new e1 hns h1
      case false =>
        simp only [noSubmodsField, Bool.false_eq_true, reduceIte] at hns
        simp only [Bool.false_eq_true, if_false, reduceIte] at h1
        exact visitCbor_preserves_submods (mapItems entries).length
          (mapItems entries) Ear.new e1 (Nat.le_refl _) hns h1
    exact validate_not_ok_of_empty_submods e1 (by rw [hsub]; rfl) u
      ((exceptMapError_ok_iff _ _ _).mp hu)
  · intro e hr w h
    unfold Ear.serializeWire at h
    obtain ⟨u, hu, _⟩ := (exceptBind_ok_iff _ _ _).mp h
    have := (exceptMapError_ok_iff _ _ _).mp hu
    cases u
    exact this
  · intro hr w e h
    cases w <;> try (cases h)
    case map entries =>
      simp only [Ear.deserializeWire] at h
      obtain ⟨e1, h1, h2⟩ := (exceptBind_ok_iff _ _ _).mp h
      obtain ⟨u, hu, hpure⟩ := (exceptBind_ok_iff _ _ _).mp h2
      cases hpure
      cases u
      exact (exceptMapError_ok_iff _ _ _).mp hu

/-- C3 amended witness: the four components applied at concrete inputs —
an Ear with profile "p" and no submods fails encoding with "empty
submods" in both modes; decoding the well-formed token with a single iat
entry (no submods field in either mode's reading) fails; and the
components (3)/(4) applied to `earPlain`'s successful encode. -/
theorem c3_validation_on_codec_witness :
    ({ Ear.new with profile := "p" } : Ear).serializeWire true =
      .error "validation error: empty submods" ∧
    (∀ res, Ear.deserializeWire true (.map [(.text "iat", .int 1)]) ≠ .ok res) ∧
    (∀ res, Ear.deserializeWire false (.map [(.int 6, .int 1)]) ≠ .ok res) ∧
    earPlain.validate = .ok () :=
  ⟨c3_validation_on_codec.1 { Ear.new with profile := "p" } true rfl (by decide),
   c3_validation_on_codec.2.1 true [(.text "iat", .int 1)]
     (by
       unfold noSubmodsField
       simp only [reduceIte, List.mem_singleton]
       intro p hp
       rw [hp]
       simp),
   c3_validation_on_codec.2.1 false [(.int 6, .int 1)]
     (by
       unfold noSubmodsField
       simp [mapItems]),
   c3_validation_on_codec.2.2.1 earPlain true
     (.map earPlainEntriesJson) (by rfl)⟩

/-- C5 (code evaluated at the failing input): the valid token `earPlain`
encodes to the entry lists below and decodes successfully in both modes,
but appending one unknown entry breaks the decode instead of the entry
being collected anywhere: the unknown arms (`Some(_) => ()`) never
consume the entry's value, so in human-readable mode serde_json rejects
the following key read, and in binary mode ciborium reads the stray value
item — here a boolean — in key position and `next_key::<i32>` fails. The
same happens inside an Appraisal. Nothing of the value is retained: this
version's Ear and Appraisal have no extensions field at all. -/
theorem c5_unknown_entry_breaks_decode :
    earPlain.serializeWire true = .ok (.map earPlainEntriesJson) ∧
    earPlain.serializeWire false = .ok (.map earPlainEntriesCbor) ∧
    (Ear.deserializeWire true (.map earPlainEntriesJson)).isOk = true ∧
    (Ear.deserializeWire false (.map earPlainEntriesCbor)).isOk = true ∧
    Ear.deserializeWire true
        (.map (earPlainEntriesJson ++ [(.text "ext.vendor", .int 1)])) =
      .error "map entry value was not consumed before the next key read" ∧
    Ear.deserializeWire false
        (.map (earPlainEntriesCbor ++ [(.int (-99), .boolv true)])) =
      .error "invalid type: expected an integer key" ∧
    Appraisal.deserializeWire true
        (.map [(.text "ext.vendor", .int 1), (.text "ear.status", .text "none")]) =
      .error "map entry value was not consumed before the next key read" ∧
    Appraisal.deserializeWire false
        (.map [(.int (-99), .boolv true), (.int 1000, .int 0)]) =
      .error "invalid type: expected an integer key" :=
  ⟨rfl, rfl, rfl, rfl, rfl, rfl, rfl, rfl⟩

/-- Appending a binding for an absent key makes it findable. -/
theorem assocFind_append_last {κ ν : Type} [DecidableEq κ]
    (l : List (κ × ν)) (k : κ) (i : ν) (h : assocFind l k = none) :
    assocFind (l ++ [(k, i)]) k = some i := by
  induction l with
  | nil => simp [assocFind]
  | cons p rest ih =>
      obtain ⟨k2, v2⟩ := p
      by_cases hk : k2 = k
      · rw [hk] at h
        simp [assocFind] at h
      · simp only [assocFind, hk, if_false, List.cons_append] at h ⊢
        exact ih h

/-- The element appended at the end of a list sits at the old length. -/
theorem getD_append_length {α : Type} (l : List α) (a d : α) :
    (l ++ [a]).getD l.length d = a := by
  induction l with
  | nil => rfl
  | cons x rest ih =>
      simp only [List.cons_append, List.length_cons, List.getD]
      simp only [List.getD] at ih
      exact ih

/-- The slot appended by `addSlot` is visible through both of its
identifiers with the value it was given. -/
theorem addSlot_gets (x : Extensions) (n : String) (k : Int)
    (kind : ExtensionKind) (v : ExtensionValue)
    (hn : x.have_name n = false) (hk : x.have_key k = false) :
    (x.addSlot n k kind v).get_by_name n = some v ∧
    (x.addSlot n k kind v).get_by_key k = some v := by
  have hn2 : assocFind x.by_name n = none := by
    unfold Extensions.have_name at hn
    cases h : assocFind x.by_name n
    · rfl
    · rw [h] at hn
      simp at hn
  have hk2 : assocFind x.by_key k = none := by
    unfold Extensions.have_key at hk
    cases h : assocFind x.by_key k
    · rfl
    · rw [h] at hk
      simp at hk
  constructor
  · unfold Extensions.get_by_name Extensions.addSlot
    rw [assocFind_append_last _ _ _ hn2]
    simp [Extensions.slotValue, getD_append_length]
  · unfold Extensions.get_by_key Extensions.addSlot
    rw [assocFind_append_last _ _ _ hk2]
    simp [Extensions.slotValue, getD_append_length]

/-- C6 counterexample: a collected byte-string value counts as
"string↔bytes convertible" (`can_convert` declares it so), yet registering
a String-kind extension over it fails — `convert` only implements the
String→Bytes direction — so the collected value never becomes visible,
refuting the claim's convertibility case. -/
theorem c6_bytes_to_string_registration_cex :
    (ExtensionValue.Bytes [1, 2, 3, 4]).can_convert .String = true ∧
    Extensions.register ⟨[], [], [], [(.key 1, .Bytes [1, 2, 3, 4])]⟩
        "foo" 1 .String =
      .error (.ExtensionError "cannot convert into String from any other variant") :=
  ⟨rfl, rfl⟩

/-- C6 (amended): registering an already-registered name or key fails with
an ExtensionError before anything is modified; after a successful
register, a value previously collected under the new slot's key or name
becomes visible through both getters when its kind matches, or when the
implemented String→Bytes conversion applies and succeeds (base64); when
the conversion is attempted and fails — which is always the case for the
declared-convertible Bytes→String direction — or when the kinds conflict
with no conversion, register fails without adding the slot. -/
theorem c6_register_collected :
    (∀ (x : Extensions) (n : String) (k : Int) (kind : ExtensionKind),
      x.have_name n = true →
      x.register n k kind =
        .error (.ExtensionError ("name " ++ n ++ " already registered"))) ∧
    (∀ (x : Extensions) (n : String) (k : Int) (kind : ExtensionKind),
      x.have_name n = false → x.have_key k = true →
      x.register n k kind =
        .error (.ExtensionError ("key " ++ toString k ++ " already registered"))) ∧
    (∀ (x : Extensions) (n : String) (k : Int) (kind : ExtensionKind)
        (v : ExtensionValue),
      x.have_name n = false → x.have_key k = false →
      x.collectedLookup k n = some v → v.is kind = true →
      x.register n k kind = .ok (x.addSlot n k kind v) ∧
      (x.addSlot n k kind v).get_by_name n = some v ∧
      (x.addSlot n k kind v).get_by_key k = some v) ∧
    (∀ (x : Extensions) (n : String) (k : Int) (kind : ExtensionKind)
        (v v2 : ExtensionValue),
      x.have_name n = false → x.have_key k = false →
      x.collectedLookup k n = some v → v.is kind = false →
      v.can_convert kind = true → v.convert kind = .ok v2 →
      x.register n k kind = .ok (x.addSlot n k kind v2) ∧
      (x.addSlot n k kind v2).get_by_name n = some v2 ∧
      (x.addSlot n k kind v2).get_by_key k = some v2) ∧
    (∀ (x : Extensions) (n : String) (k : Int) (kind : ExtensionKind)
        (v : ExtensionValue) (err : Error),
      x.have_name n = false → x.have_key k = false →
      x.collectedLookup k n = some v → v.is kind = false →
      v.can_convert kind = true → v.convert kind = .error err →
      x.register n k kind = .error err) ∧
    (∀ (x : Extensions) (n : String) (k : Int) (kind : ExtensionKind)
        (v : ExtensionValue),
      x.have_name n = false → x.have_key k = false →
      x.collectedLookup k n = some v → v.is kind = false →
      v.can_convert kind = false →
      x.register n k kind =
        .error (.ExtensionError
          ("kind mismatch: value is " ++ v.kind.debugName ++ ", but want " ++
            kind.debugName))) := by
  refine ⟨?_, ?_, ?_, ?_, ?_, ?_⟩
  · intro x n k kind h
    simp [Extensions.register, h]
  · intro x n k kind h1 h2
    simp [Extensions.register, h1, h2]
  · intro x n k kind v h1 h2 h3 h4
    refine ⟨?_, addSlot_gets x n k kind v h1 h2⟩
    simp [Extensions.register, h1, h2, h3, h4]
  · intro x n k kind v v2 h1 h2 h3 h4 h5 h6
    refine ⟨?_, addSlot_gets x n k kind v2 h1 h2⟩
    simp [Extensions.register, h1, h2, h3, h4, h5, h6]
  · intro x n k kind v err h1 h2 h3 h4 h5 h6
    simp [Extensions.register, h1, h2, h3, h4, h5, h6]
  · intro x n k kind v h1 h2 h3 h4 h5
    simp [Extensions.register, h1, h2, h3, h4, h5]

/-- C6 amended witness: the six components applied at concrete registries:
duplicate name and duplicate key registrations fail; a collected Integer
becomes visible once an Integer slot is registered; a collected base64
String becomes visible as Bytes under a Bytes slot; a collected
byte-string fails a String-slot registration (the convert error); and a
collected Integer fails a Bool-slot registration (kind mismatch). -/
theorem c6_register_collected_witness :
    Extensions.register ⟨[⟨.Bool, .Unset⟩], [(1, 0)], [("foo", 0)], []⟩
        "foo" 2 .Bool =
      .error (.ExtensionError "name foo already registered") ∧
    Extensions.register ⟨[⟨.Bool, .Unset⟩], [(1, 0)], [("foo", 0)], []⟩
        "bar" 1 .Bool =
      .error (.ExtensionError "key 1 already registered") ∧
    (Extensions.register ⟨[], [], [], [(.key 2, .Integer 42)]⟩ "exp" 2 .Integer =
        .ok (Extensions.addSlot ⟨[], [], [], [(.key 2, .Integer 42)]⟩
          "exp" 2 .Integer (.Integer 42)) ∧
      (Extensions.addSlot ⟨[], [], [], [(.key 2, .Integer 42)]⟩
          "exp" 2 .Integer (.Integer 42)).get_by_name "exp" = some (.Integer 42)) ∧
    (Extensions.register ⟨[], [], [], [(.name "data", .String "3q2-7w")]⟩
        "data" 3 .Bytes =
        .ok (Extensions.addSlot ⟨[], [], [], [(.name "data", .String "3q2-7w")]⟩
          "data" 3 .Bytes (.Bytes [222, 173, 190, 239])) ∧
      (Extensions.addSlot ⟨[], [], [], [(.name "data", .String "3q2-7w")]⟩
          "data" 3 .Bytes (.Bytes [222, 173, 190, 239])).get_by_key 3 =
        some (.Bytes [222, 173, 190, 239])) ∧
    Extensions.register ⟨[], [], [], [(.key 4, .Bytes [9, 9])]⟩ "blob" 4 .String =
      .error (.ExtensionError "cannot convert into String from any other variant") ∧
    Extensions.register ⟨[], [], [], [(.key 5, .Integer 7)]⟩ "flag" 5 .Bool =
      .error (.ExtensionError "kind mismatch: value is Integer, but want Bool") :=
  ⟨c6_register_collected.1 _ "foo" 2 .Bool rfl,
   c6_register_collected.2.1 _ "bar" 1 .Bool rfl rfl,
   (by
     have h := c6_register_collected.2.2.1 ⟨[], [], [], [(.key 2, .Integer 42)]⟩
       "exp" 2 .Integer (.Integer 42) rfl rfl rfl rfl
     exact ⟨h.1, h.2.1⟩),
   (by
     have h := c6_register_collected.2.2.2.1 ⟨[], [], [], [(.name "data", .String "3q2-7w")]⟩
       "data" 3 .Bytes (.String "3q2-7w") (.Bytes [222, 173, 190, 239])
       rfl rfl rfl rfl rfl rfl
     exact ⟨h.1, h.2.2⟩),
   c6_register_collected.2.2.2.2.1 ⟨[], [], [], [(.key 4, .Bytes [9, 9])]⟩
     "blob" 4 .String (.Bytes [9, 9])
     (.ExtensionError "cannot convert into String from any other variant")
     rfl rfl rfl rfl rfl rfl,
   c6_register_collected.2.2.2.2.2 ⟨[], [], [], [(.key 5, .Integer 7)]⟩
     "flag" 5 .Bool (.Integer 7) rfl rfl rfl rfl rfl⟩

/-- Binding after a failing `Except` computation fails the same way. -/
theorem exceptBind_err_left {ε α β : Type} (m : Except ε α)
    (f : α → Except ε β) (e : ε) (h : m = .error e) : (m >>= f) = .error e := by
  rw [h]
  rfl

/-- Binding after a successful `Except` computation runs the
continuation. -/
theorem exceptBind_ok_left {ε α β : Type} (m : Except ε α)
    (f : α → Except ε β) (a : α) (h : m = .ok a) : (m >>= f) = f a := by
  rw [h]
  rfl

/-- All string elements of a nonce serialize fine in human-readable mode,
so the first byte element is what fails `mapM`. -/
theorem nonce_mapM_hr_err :
    ∀ (l : List OneNonce), (∃ b, OneNonce.bytes b ∈ l) →
      l.mapM (OneNonce.serializeWire true) =
        .error "cannot write byte nonce to JSON" := by
  intro l
  induction l with
  | nil =>
      rintro ⟨b, hb⟩
      simp at hb
  | cons x rest ih =>
      rintro ⟨b, hb⟩
      rw [List.mapM_cons]
      cases x with
      | bytes c =>
          exact exceptBind_err_left _ _ _ rfl
      | str s =>
          have hbr : OneNonce.bytes b ∈ rest := by
            rcases List.mem_cons.mp hb with h | h
            · cases h
            · exact h
          rw [exceptBind_ok_left (OneNonce.serializeWire true (.str s)) _
            (Wire.text s) rfl]
          exact exceptBind_err_left _ _ _ (ih ⟨b, hbr⟩)

/-- All byte elements of a nonce serialize fine in binary mode, so the
first string element is what fails `mapM`. -/
theorem nonce_mapM_cbor_err :
    ∀ (l : List OneNonce), (∃ s, OneNonce.str s ∈ l) →
      l.mapM (OneNonce.serializeWire false) =
        .error "cannot write string nonce to CBOR" := by
  intro l
  induction l with
  | nil =>
      rintro ⟨s, hs⟩
      simp at hs
  | cons x rest ih =>
      rintro ⟨s, hs⟩
      rw [List.mapM_cons]
      cases x with
      | str t =>
          exact exceptBind_err_left _ _ _ rfl
      | bytes c =>
          have hsr : OneNonce.str s ∈ rest := by
            rcases List.mem_cons.mp hs with h | h
            · cases h
            · exact h
          rw [exceptBind_ok_left (OneNonce.serializeWire false (.bytes c)) _
            (Wire.bytes c) rfl]
          exact exceptBind_err_left _ _ _ (ih ⟨s, hsr⟩)

/-- C8: serializing a nonce with a byte-string element in human-readable
mode fails with exactly the error "cannot write byte nonce to JSON", and
serializing a nonce with a text element in binary mode fails with exactly
"cannot write string nonce to CBOR" — an error, never a silent coercion to
the other representation. -/
theorem c8_nonce_mode_mismatch_errors :
    (∀ n : Nonce, (∃ b, OneNonce.bytes b ∈ n.elems) →
      n.serializeWire true = .error "cannot write byte nonce to JSON") ∧
    (∀ n : Nonce, (∃ s, OneNonce.str s ∈ n.elems) →
      n.serializeWire false = .error "cannot write string nonce to CBOR") := by
  constructor
  · rintro ⟨elems⟩ ⟨b, hb⟩
    match elems with
    | [] => simp at hb
    | [x] =>
        rcases List.mem_singleton.mp hb with rfl
        rfl
    | x :: y :: rest =>
        have h2 : (x :: y :: rest).mapM (OneNonce.serializeWire true) =
            .error "cannot write byte nonce to JSON" :=
          nonce_mapM_hr_err _ ⟨b, hb⟩
        simp only [Nonce.serializeWire]
        exact exceptBind_err_left _ _ _ h2
  · rintro ⟨elems⟩ ⟨s, hs⟩
    match elems with
    | [] => simp at hs
    | [x] =>
        rcases List.mem_singleton.mp hs with rfl
        rfl
    | x :: y :: rest =>
        have h2 : (x :: y :: rest).mapM (OneNonce.serializeWire false) =
            .error "cannot write string nonce to CBOR" :=
          nonce_mapM_cbor_err _ ⟨s, hs⟩
        simp only [Nonce.serializeWire]
        exact exceptBind_err_left _ _ _ h2

/-- C8 witness: a single-element byte nonce fails JSON serialization, and
a two-element text nonce fails CBOR serialization (the repository's own
test values). -/
theorem c8_nonce_mode_mismatch_witness :
    Nonce.serializeWire true ⟨[.bytes [222, 173, 190, 239, 222, 173, 190, 239]]⟩ =
      .error "cannot write byte nonce to JSON" ∧
    Nonce.serializeWire false ⟨[.str "test value one", .str "test value two"]⟩ =
      .error "cannot write string nonce to CBOR" :=
  ⟨c8_nonce_mode_mismatch_errors.1 ⟨[.bytes [222, 173, 190, 239, 222, 173, 190, 239]]⟩
     ⟨[222, 173, 190, 239, 222, 173, 190, 239], by simp⟩,
   c8_nonce_mode_mismatch_errors.2 ⟨[.str "test value one", .str "test value two"]⟩
     ⟨"test value one", by simp⟩⟩

/-- C7 amended witness: the universally quantified implications applied at
concrete inputs — a 7-byte nonce and a 7-character ASCII text nonce, both
rejected with the stated ParseErrors. -/
theorem c7_nonce_length_bounds_witness :
    OneNonce.fromBytes [0, 0, 0, 0, 0, 0, 0] =
      .error (.ParseError "nonce must be between 8 and 64 bytes") ∧
    OneNonce.fromStr "abcdefg" =
      .error (.ParseError "nonce must be between 8 and 88 characters") :=
  ⟨c7_nonce_length_bounds.2.1 [0, 0, 0, 0, 0, 0, 0] (by decide),
   c7_nonce_length_bounds.2.2.2.1 "abcdefg" (by decide)⟩

end RustEar
